import Mathlib

/-!
Verification of the message-system storage core (`common/storage.py`) and the
consumer pipeline driver (`Consumer/consumer_stub.py`).

The embedding models:
* JSON values in the fragment this system reads and writes (strings and string-keyed
  objects; the outbox envelopes and payloads contain no numbers, arrays, booleans or
  nulls), together with executable models of Python's `json.dumps(..., sort_keys=True)`
  (with its default `ensure_ascii=True` escaping) and `json.loads`;
* the outbox log as a list of text lines;
* the consumer-offset store as a structured file state;
* the SQLite message table as a list of rows (the store is append-only: the system
  never deletes, so `AUTOINCREMENT` ids are `count + 1`);
* the consumer stub's main processing loop.
-/

/-- JSON values in the fragment that the system serializes and parses: strings and
objects with string keys.  (Python's `json` also handles numbers, arrays, booleans
and null; none of those occur in the envelopes and payloads this program writes,
and the parser model simply rejects them, which only makes more lines count as
malformed.) -/
inductive Json where
  | str (s : String)
  | obj (fields : List (String × Json))
deriving Repr

namespace Json

/-- Python `dict.get`: last binding wins, mirroring how `json.loads` builds a
dict (later duplicate keys overwrite earlier ones). -/
def lookupField (fs : List (String × Json)) (k : String) : Option Json :=
  fs.foldl (fun acc p => if p.1 = k then some p.2 else acc) none

/-- `envelope.get(k)` on a decoded JSON value; only dicts support `.get`. -/
def get (j : Json) (k : String) : Option Json :=
  match j with
  | .obj fs => lookupField fs k
  | .str _ => none

end Json

/-! ## Python string helpers -/

/-- Whitespace stripped by Python's `str.strip()` (the ASCII cases; the rare
Unicode whitespace code points are elided, no claim depends on them). -/
def pyWsChar (c : Char) : Bool :=
  c = ' ' || c = '\t' || c = '\n' || c = '\r' || c = '\x0b' || c = '\x0c'

/-- Python `str.strip()`: drop leading and trailing whitespace. -/
def pyStripL (l : List Char) : List Char :=
  ((l.dropWhile pyWsChar).reverse.dropWhile pyWsChar).reverse

/-- Python `str.strip()` on `String`. -/
def pyStrip (s : String) : String := ⟨pyStripL s.data⟩

/-- Python `repr` of a string (single-quoted; `repr`'s escaping of quotes,
backslashes and non-printables is elided — it is only reachable through
`str()` of a non-string payload field, whose exact text no claim depends on). -/
def pyReprStr (s : String) : String := "\x27" ++ s ++ "\x27"

mutual

/-- Python `repr` of a decoded-JSON value (dict case). -/
def pyRepr : Json → String
  | .str s => pyReprStr s
  | .obj fs => "\x7b" ++ pyReprFields fs ++ "\x7d"

/-- Python `repr` of the fields of a dict, comma-separated. -/
def pyReprFields : List (String × Json) → String
  | [] => ""
  | [(k, v)] => pyReprStr k ++ ": " ++ pyRepr v
  | (k, v) :: rest => pyReprStr k ++ ": " ++ pyRepr v ++ ", " ++ pyReprFields rest

end

/-- Python `str()` applied to a decoded-JSON value: identity on strings,
`repr` on dicts. -/
def pyStr : Json → String
  | .str s => s
  | .obj fs => pyRepr (.obj fs)

/-! ## `json.dumps(..., sort_keys=True)` -/

/-- Lowercase hex digit, as produced by Python's `\uXXXX` escapes (`%04x`). -/
def hexDigitChar : Nat → Char
  | 0 => '0' | 1 => '1' | 2 => '2' | 3 => '3' | 4 => '4'
  | 5 => '5' | 6 => '6' | 7 => '7' | 8 => '8' | 9 => '9'
  | 10 => 'a' | 11 => 'b' | 12 => 'c' | 13 => 'd' | 14 => 'e'
  | _ => 'f'

/-- Four lowercase hex digits of `n % 0x10000`. -/
def hex4 (n : Nat) : List Char :=
  [hexDigitChar (n / 4096 % 16), hexDigitChar (n / 256 % 16),
   hexDigitChar (n / 16 % 16), hexDigitChar (n % 16)]

/-- Escaping of one character by `json.dumps` with its default
`ensure_ascii=True`: printable ASCII other than quote and backslash passes
through; quote, backslash and the short control escapes get two-character
escapes; everything else becomes `\uXXXX` (a surrogate pair for code points
above U+FFFF). -/
def escChar (c : Char) : List Char :=
  if c = '"' then ['\\', '"']
  else if c = '\\' then ['\\', '\\']
  else if c = '\n' then ['\\', 'n']
  else if c = '\t' then ['\\', 't']
  else if c = '\r' then ['\\', 'r']
  else if c = '\x08' then ['\\', 'b']
  else if c = '\x0c' then ['\\', 'f']
  else if 0x20 ≤ c.toNat ∧ c.toNat ≤ 0x7e then [c]
  else if c.toNat < 0x10000 then '\\' :: 'u' :: hex4 c.toNat
  else
    let v := c.toNat - 0x10000
    ('\\' :: 'u' :: hex4 (0xd800 + v / 0x400)) ++ ('\\' :: 'u' :: hex4 (0xdc00 + v % 0x400))

/-- Escaping of a whole string body. -/
def escString (l : List Char) : List Char := l.flatMap escChar

/-- A serialized JSON string: quote, escaped body, quote. -/
def dumpStr (s : String) : List Char := '"' :: escString s.data ++ ['"']

/-- Stable insertion of a field into a key-sorted field list (for
`sort_keys=True`; on the duplicate keys a real Python dict cannot have, the
tie-break is irrelevant). -/
def insertField (kv : String × Json) : List (String × Json) → List (String × Json)
  | [] => [kv]
  | h :: t => if kv.1 < h.1 then kv :: h :: t else h :: insertField kv t

/-- Sort an object's fields by key, as `sort_keys=True` does. -/
def sortFields : List (String × Json) → List (String × Json)
  | [] => []
  | h :: t => insertField h (sortFields t)

theorem sizeOf_insertField (kv : String × Json) (l : List (String × Json)) :
    sizeOf (insertField kv l) = 1 + sizeOf kv + sizeOf l := by
  induction l with
  | nil => simp [insertField]
  | cons h t ih =>
    simp only [insertField]
    split <;> simp only [List.cons.sizeOf_spec, ih] <;> omega

theorem sizeOf_sortFields (l : List (String × Json)) :
    sizeOf (sortFields l) = sizeOf l := by
  induction l with
  | nil => rfl
  | cons h t ih =>
    simp only [sortFields, sizeOf_insertField, List.cons.sizeOf_spec, ih]

mutual

/-- `json.dumps(j, sort_keys=True)` over the modeled fragment, with the default
separators `", "` and `": "`, as a character list. -/
def dumpsL : Json → List Char
  | .str s => dumpStr s
  | .obj fs => '{' :: dumpMembers (sortFields fs) ++ ['}']
termination_by j => sizeOf j
decreasing_by
  all_goals simp_wf
  all_goals try simp only [sizeOf_sortFields, Json.obj.sizeOf_spec, List.cons.sizeOf_spec,
    Prod.mk.sizeOf_spec]
  all_goals omega

/-- Serialization of an object's (already sorted) members. -/
def dumpMembers : List (String × Json) → List Char
  | [] => []
  | [(k, v)] => dumpStr k ++ ':' :: ' ' :: dumpsL v
  | (k, v) :: rest => dumpStr k ++ ':' :: ' ' :: dumpsL v ++ ',' :: ' ' :: dumpMembers rest
termination_by fs => sizeOf fs
decreasing_by
  all_goals simp_wf
  all_goals try simp only [sizeOf_sortFields, Json.obj.sizeOf_spec, List.cons.sizeOf_spec,
    Prod.mk.sizeOf_spec]
  all_goals omega

end

/-- `json.dumps(j, sort_keys=True)` as a `String`. -/
def dumps (j : Json) : String := ⟨dumpsL j⟩

/-! ## `json.loads` -/

/-- JSON inter-token whitespace (`json.decoder`: space, tab, newline, carriage
return). -/
def jsonWs (c : Char) : Bool :=
  c = ' ' || c = '\t' || c = '\n' || c = '\r'

/-- Skip JSON whitespace. -/
def skipWs (l : List Char) : List Char := l.dropWhile jsonWs

/-- Value of a hex digit, as accepted in `\uXXXX` escapes. -/
def fromHexDigit (c : Char) : Option Nat :=
  if '0' ≤ c ∧ c ≤ '9' then some (c.toNat - '0'.toNat)
  else if 'a' ≤ c ∧ c ≤ 'f' then some (c.toNat - 'a'.toNat + 10)
  else if 'A' ≤ c ∧ c ≤ 'F' then some (c.toNat - 'A'.toNat + 10)
  else none

/-- The single-character escapes `json.loads` accepts after a backslash
(besides `\uXXXX`). -/
def escCode (e : Char) : Option Char :=
  if e = '"' then some '"'
  else if e = '\\' then some '\\'
  else if e = '/' then some '/'
  else if e = 'b' then some '\x08'
  else if e = 'f' then some '\x0c'
  else if e = 'n' then some '\n'
  else if e = 'r' then some '\r'
  else if e = 't' then some '\t'
  else none

/-- Parse four hex digits into their value. -/
def parseHex4 : List Char → Option (Nat × List Char)
  | h1 :: h2 :: h3 :: h4 :: r =>
    match fromHexDigit h1, fromHexDigit h2, fromHexDigit h3, fromHexDigit h4 with
    | some a, some b, some c, some d => some (a * 4096 + b * 256 + c * 16 + d, r)
    | _, _, _, _ => none
  | _ => none

/-- Parse one `\uXXXX` escape after the `\u` (four hex digits; a high
surrogate must be followed by `\u` and a low surrogate, recombined as
Python's scanner does).  Returns the decoded character and the rest of the
input.  (Python tolerates lone surrogates, which a Lean `Char` cannot
represent; the model rejects them — they never arise from `dumps` output.) -/
def parseUEsc (r : List Char) : Option (Char × List Char) :=
  match parseHex4 r with
  | none => none
  | some (n, r2) =>
    if 0xd800 ≤ n ∧ n < 0xdc00 then
      match r2 with
      | b1 :: b2 :: rest =>
        if b1 = '\\' ∧ b2 = 'u' then
          match parseHex4 rest with
          | some (m, r3) =>
            if 0xdc00 ≤ m ∧ m < 0xe000 then
              some (Char.ofNat (0x10000 + (n - 0xd800) * 1024 + (m - 0xdc00)), r3)
            else none
          | none => none
        else none
      | _ => none
    else if 0xdc00 ≤ n ∧ n < 0xe000 then none
    else some (Char.ofNat n, r2)

theorem parseHex4_length (r : List Char) (n : Nat) (r2 : List Char)
    (h : parseHex4 r = some (n, r2)) : r2.length + 4 ≤ r.length := by
  unfold parseHex4 at h
  repeat' split at h
  all_goals simp_all

theorem parseUEsc_length (r : List Char) (ch : Char) (r2 : List Char)
    (h : parseUEsc r = some (ch, r2)) : r2.length + 4 ≤ r.length := by
  unfold parseUEsc at h
  split at h
  · cases h
  · next n r3 heq =>
    have hl := parseHex4_length _ _ _ heq
    split at h
    · split at h
      · next b1 b2 rest =>
        split at h
        · split at h
          · next m r4 heq2 =>
            have hl2 := parseHex4_length _ _ _ heq2
            split at h
            · simp only [Option.some.injEq, Prod.mk.injEq] at h
              obtain ⟨-, rfl⟩ := h
              simp only [List.length_cons] at hl ⊢
              omega
            · cases h
          · cases h
        · cases h
      · cases h
    · split at h
      · cases h
      · simp only [Option.some.injEq, Prod.mk.injEq] at h
        obtain ⟨-, rfl⟩ := h
        omega

/-- Parse the body of a JSON string after the opening quote, returning the
decoded characters and the rest of the input. -/
def parseStrBody : List Char → Option (List Char × List Char)
  | [] => none
  | c :: r =>
    if c = '"' then some ([], r)
    else if c = '\\' then
      match r with
      | [] => none
      | e :: r1 =>
        if e = 'u' then
          match hu : parseUEsc r1 with
          | some (ch, r2) =>
            match parseStrBody r2 with
            | some (cs, rest) => some (ch :: cs, rest)
            | none => none
          | none => none
        else
          match escCode e with
          | some d =>
            match parseStrBody r1 with
            | some (cs, rest) => some (d :: cs, rest)
            | none => none
          | none => none
    else
      match parseStrBody r with
      | some (cs, rest) => some (c :: cs, rest)
      | none => none
termination_by l => l.length
decreasing_by
  · have := parseUEsc_length _ _ _ hu
    simp only [List.length_cons]
    omega
  · simp only [List.length_cons]
    omega
  · simp only [List.length_cons]
    omega

mutual

/-- Recursive-descent parser for the modeled JSON fragment (fuel-indexed to
make the mutual recursion evidently total; `loads` supplies ample fuel). -/
def parseJson : Nat → List Char → Option (Json × List Char)
  | 0, _ => none
  | f + 1, x =>
    match skipWs x with
    | [] => none
    | c :: r =>
      if c = '"' then
        match parseStrBody r with
        | some (cs, rest) => some (.str ⟨cs⟩, rest)
        | none => none
      else if c = '{' then
        match skipWs r with
        | [] => none
        | c2 :: r2 =>
          if c2 = '}' then some (.obj [], r2)
          else parseMembers f (c2 :: r2)
      else none

/-- Parse the members of a JSON object (after the opening brace, first key
next), returning the object and the rest of the input. -/
def parseMembers : Nat → List Char → Option (Json × List Char)
  | 0, _ => none
  | f + 1, x =>
    match x with
    | [] => none
    | c :: r =>
      if c = '"' then
        match parseStrBody r with
        | some (kcs, r1) =>
          match skipWs r1 with
          | [] => none
          | c2 :: r2 =>
            if c2 = ':' then
              match parseJson f (skipWs r2) with
              | some (v, r3) =>
                match skipWs r3 with
                | [] => none
                | c3 :: r4 =>
                  if c3 = ',' then
                    match parseMembers f (skipWs r4) with
                    | some (.obj fs, rest) => some (.obj ((⟨kcs⟩, v) :: fs), rest)
                    | _ => none
                  else if c3 = '}' then some (.obj [(⟨kcs⟩, v)], r4)
                  else none
              | none => none
            else none
        | none => none
      else none

end

/-- `json.loads`: parse a complete document; trailing non-whitespace is an
error ("Extra data"). -/
def loads (s : String) : Option Json :=
  match parseJson (s.data.length + 1) s.data with
  | some (j, rest) => if skipWs rest = [] then some j else none
  | none => none

/-! ## `create_payload` (storage.py lines 62-84)

Nondeterministic inputs of the Python code are explicit parameters: `genId` is
the `str(uuid.uuid4())` drawn when `message_id` is falsy, `now` is
`utc_now_iso()`.  The function is pure — it touches no durable resource. -/

/-- `create_payload`: validates content, fills in `message_id` (a falsy — absent
or empty — argument is replaced by a fresh uuid), stamps `published_at`, and
returns the payload dict (as its field list, in Python insertion order). -/
def createPayload (content : String) (message_id : Option String)
    (producer_name : String) (user_name : Option String)
    (genId : String) (now : String) : Except String (List (String × Json)) :=
  let clean_content := pyStrip content
  if clean_content = "" then .error "Message content is required."
  else
    let mid := pyStrip (match message_id with
      | some s => if s = "" then genId else s
      | none => genId)
    let base : List (String × Json) :=
      [("message_id", .str mid), ("content", .str clean_content),
       ("published_at", .str now), ("producer_name", .str producer_name)]
    let payload := match user_name with
      | some u => if u = "" then base else base ++ [("user_name", .str (pyStrip u))]
      | none => base
    if mid = "" then .error "Message ID cannot be blank."
    else .ok payload

/-! ## Outbox log (storage.py lines 87-115)

The outbox file is `none` while it does not exist, `some lines` afterwards
(each line without its trailing newline). -/

/-- The lines of an outbox file (`[]` when the file does not exist). -/
def outboxLines (ob : Option (List String)) : List String := ob.getD []

/-- The envelope built by `append_outbox_message`; `tid` is the fresh
`str(uuid.uuid4())` transport id and `now` is `utc_now_iso()`. -/
def mkEnvelope (payload : List (String × Json)) (source tid now : String) : Json :=
  .obj [("transport_id", .str tid), ("queued_at", .str now),
        ("source", .str source), ("payload", .obj payload)]

/-- `append_outbox_message`: serialize the envelope with
`json.dumps(..., sort_keys=True)` and append it as one new final line.
Returns the new file contents and the envelope. -/
def appendOutboxMessage (payload : List (String × Json)) (source tid now : String)
    (ob : Option (List String)) : List String × Json :=
  let env := mkEnvelope payload source tid now
  (outboxLines ob ++ [dumps env], env)

/-- One step of `iter_outbox_from_line`'s loop over `enumerate(handle, start=1)`:
skip lines at or before `start`, skip blank lines, decode the rest; an
undecodable line aborts the iteration there (`ValueError`, the model records
the offending line number).  Returns the yielded `(line_number, envelope)`
pairs and the error position, if any. -/
def iterLines (start : Int) : Nat → List String → List (Nat × Json) × Option Nat
  | _, [] => ([], none)
  | n, l :: rest =>
    if (n : Int) ≤ start then iterLines start (n + 1) rest
    else
      let stripped := pyStrip l
      if stripped = "" then iterLines start (n + 1) rest
      else
        match loads stripped with
        | some j =>
          let p := iterLines start (n + 1) rest
          ((n, j) :: p.1, p.2)
        | none => ([], some n)

/-- `iter_outbox_from_line(start)`: empty if the file does not exist, else the
line loop from line number 1. -/
def iterOutbox (start : Int) (ob : Option (List String)) :
    List (Nat × Json) × Option Nat :=
  match ob with
  | none => ([], none)
  | some ls => iterLines start 1 ls

/-- `count_outbox_lines`: number of non-blank lines (0 if the file does not
exist). -/
def countOutboxLines (ob : Option (List String)) : Nat :=
  (outboxLines ob).countP (fun l => pyStrip l ≠ "")

/-! ## Consumer offset store (storage.py lines 118-150) -/

/-- A value sitting in the consumer-state JSON object.  `int n` stands for any
JSON value Python's `int()` converts (carrying the converted integer);
`nonInt` for a value on which `int()` raises `TypeError`/`ValueError` and
which `_load_consumer_state_map` therefore skips. -/
inductive OffVal where
  | int (n : Int)
  | nonInt
deriving Repr, DecidableEq

/-- The consumer-state file, structurally: missing, unreadable (`OSError`),
undecodable (`json.JSONDecodeError`), valid JSON that is not an object, or a
JSON object. -/
inductive StateFile where
  | missing
  | unreadable
  | invalidJson
  | nonObject
  | obj (entries : List (String × OffVal))
deriving Repr, DecidableEq

/-- `_load_consumer_state_map`: `{}` for a missing, unreadable, undecodable or
non-object file; otherwise the int-convertible entries of the object. -/
def loadConsumerStateMap (f : StateFile) : List (String × Int) :=
  match f with
  | .missing | .unreadable | .invalidJson | .nonObject => []
  | .obj es => es.filterMap (fun p =>
      match p.2 with
      | .int n => some (p.1, n)
      | .nonInt => none)

/-- First-match association lookup (the cleaned map has the unique keys of a
Python dict). -/
def lookupOffset (l : List (String × Int)) (k : String) : Option Int :=
  match l with
  | [] => none
  | p :: t => if p.1 = k then some p.2 else lookupOffset t k

/-- Python `state[name] = v` on the cleaned map: replace in place, or append. -/
def updateOffset (l : List (String × Int)) (k : String) (v : Int) :
    List (String × Int) :=
  match l with
  | [] => [(k, v)]
  | p :: t => if p.1 = k then (k, v) :: t else p :: updateOffset t k v

/-- `get_consumer_offset`: the stored offset, defaulting to 0. -/
def getConsumerOffset (consumer_name : String) (f : StateFile) : Int :=
  (lookupOffset (loadConsumerStateMap f) consumer_name).getD 0

/-- `set_consumer_offset`: read-modify-write of the whole map, storing
`max(0, last_line)` for this consumer and rewriting the file as a JSON object
(`json.dump(..., sort_keys=True)`; the structured model keeps entry order,
which no reader observes). -/
def setConsumerOffset (consumer_name : String) (last_line : Int) (f : StateFile) :
    StateFile :=
  .obj ((updateOffset (loadConsumerStateMap f) consumer_name (max 0 last_line)).map
    (fun p => (p.1, OffVal.int p.2)))

/-! ## Message store (storage.py lines 153-229, 275-295) -/

/-- A row of the `messages` table.  `is_duplicate` is the stored SQLite
`INTEGER` (0 or 1); `transport_id` and `source` are the nullable provenance
columns, holding whatever decoded value the caller passed. -/
structure Row where
  id : Nat
  message_id : String
  message_content : String
  published_at : String
  received_at : String
  is_duplicate : Nat
  transport_id : Option Json
  source : Option Json
  producer_name : String
  raw_payload : String

/-- `str(payload.get(k, "")).strip()` for a decoded payload dict. -/
def payloadField (payload : List (String × Json)) (k : String) : String :=
  pyStrip (pyStr ((Json.lookupField payload k).getD (.str "")))

/-- `insert_message_from_payload`: validate `message_id` then `content`
(blank `published_at` falls back to the insert-time clock, blank
`producer_name` to `"unknown-producer"`), compute `is_duplicate` by checking
for an existing row with the same `message_id`, and append exactly one new
row.  `now` is the `utc_now_iso()` reading of this insert (the code's two
clock calls land in the same modeled instant); the `AUTOINCREMENT` id of the
append-only table is `count + 1`.  `consumer_name` is accepted and unused in
the stored row, as in the code. -/
def insertMessageFromPayload (payload : List (String × Json))
    (transport_id source : Option Json) (consumer_name : String) (now : String)
    (db : List Row) : Except String (List Row × Row) :=
  let message_id := payloadField payload "message_id"
  let content := payloadField payload "content"
  let published_at := let v := payloadField payload "published_at"
                      if v = "" then now else v
  let producer_name := let v := payloadField payload "producer_name"
                       if v = "" then "unknown-producer" else v
  if message_id = "" then .error "Payload missing required field: message_id"
  else if content = "" then .error "Payload missing required field: content"
  else
    let received_at := now
    let raw_payload := dumps (.obj payload)
    let is_dup : Nat := if db.any (fun r => r.message_id = message_id) then 1 else 0
    let row : Row :=
      { id := db.length + 1, message_id := message_id, message_content := content,
        published_at := published_at, received_at := received_at,
        is_duplicate := is_dup, transport_id := transport_id, source := source,
        producer_name := producer_name, raw_payload := raw_payload }
    .ok (db ++ [row], row)

/-- The aggregate part of `get_summary`: `SELECT COUNT(*),
COALESCE(SUM(is_duplicate), 0) FROM messages`, plus the outbox line count. -/
structure Summary where
  outbox_count : Nat
  db_total : Nat
  db_duplicates : Nat
deriving Repr, DecidableEq

/-- `get_summary` over the current table and outbox. -/
def getSummary (db : List Row) (ob : Option (List String)) : Summary :=
  { outbox_count := countOutboxLines ob,
    db_total := db.length,
    db_duplicates := (db.map (fun r => r.is_duplicate)).sum }

/-- One insert call as a black-box operation (for quantifying over "any
sequence of inserts"). -/
structure InsOp where
  payload : List (String × Json)
  transport_id : Option Json
  source : Option Json
  consumer_name : String
  now : String

/-- Apply one insert; a raised `ValueError` leaves the table unchanged (the
failed call writes nothing). -/
def applyInsert (db : List Row) (op : InsOp) : List Row :=
  match insertMessageFromPayload op.payload op.transport_id op.source
      op.consumer_name op.now db with
  | .ok (db2, _) => db2
  | .error _ => db

/-- The table produced by a sequence of insert calls starting from an empty
store. -/
def runInserts (ops : List InsOp) : List Row := List.foldl applyInsert [] ops

/-! ## Pipeline driver (consumer_stub.py lines 64-109, default flags) -/

/-- How a driver run ended: normal completion (exit code 0), a caught
`ValueError` — malformed outbox line or insert validation failure — (exit
code 1), or an uncaught exception from poking a non-dict decoded line. -/
inductive RunOutcome where
  | completed
  | stoppedError
  | crashed
deriving Repr, DecidableEq

/-- Result of a driver run: outcome, counters, the final `latest_offset`, and
the final states of the two resources the driver writes. -/
structure LoopOut where
  outcome : RunOutcome
  processed : Nat
  duplicates : Nat
  finalOffset : Int
  offsets : StateFile
  db : List Row

/-- `envelope.get("payload") or {}` followed by using the result as a dict:
a missing or falsy field gives `{}`; a truthy non-dict value (or a non-dict
envelope) makes the subsequent `.get` calls raise `AttributeError`, which
nothing catches (`none` here). -/
def envelopePayload (env : Json) : Option (List (String × Json)) :=
  match env with
  | .obj fs =>
    match Json.lookupField fs "payload" with
    | none => some []
    | some (.obj pfs) => some pfs
    | some (.str s) => if s = "" then some [] else none
  | .str _ => none

/-- The consumer stub's `for line_number, envelope in iter_outbox_from_line(...)`
loop.  The materialized iterator output `(entries, err)` reflects generator
semantics: entries are pulled one at a time and the decode error is raised at
the pull after the last good entry; the batch-size break happens after a
successful pull, so a pending decode error still fires even with a full
batch.  After each successful insert the offset is persisted immediately.
`clock` gives the `utc_now_iso()` reading of each successive insert. -/
def driverLoop (cn : String) (batch : Nat) (clock : Nat → String)
    (err : Option Nat) :
    List (Nat × Json) → Int → StateFile → List Row → Nat → Nat → Nat → LoopOut
  | [], latest, off, db, _, proc, dups =>
    match err with
    | none => ⟨.completed, proc, dups, latest, off, db⟩
    | some _ => ⟨.stoppedError, proc, dups, latest, off, db⟩
  | (ln, env) :: rest, latest, off, db, i, proc, dups =>
    if batch ≠ 0 ∧ batch ≤ proc then ⟨.completed, proc, dups, latest, off, db⟩
    else
      match envelopePayload env with
      | none => ⟨.crashed, proc, dups, latest, off, db⟩
      | some pfs =>
        match insertMessageFromPayload pfs (env.get "transport_id")
            (env.get "source") cn (clock i) db with
        | .error _ => ⟨.stoppedError, proc, dups, latest, off, db⟩
        | .ok (db2, row) =>
          driverLoop cn batch clock err rest (ln : Int)
            (setConsumerOffset cn (ln : Int) off) db2 (i + 1) (proc + 1)
            (if row.is_duplicate ≠ 0 then dups + 1 else dups)

/-- The state of the three durable resources. -/
structure SysState where
  outbox : Option (List String)
  offsets : StateFile
  db : List Row

/-- One run of the consumer stub's `main` with default flags (`--batch-size`
as given, no `--reset-offset`, no `--status-only`): read the current offset,
iterate the outbox past it, insert each entry and persist the offset after
each insert.  The status prints and `init_db` are effect-free in the model. -/
def runDriver (cn : String) (batch : Nat) (clock : Nat → String)
    (st : SysState) : LoopOut :=
  let cur := getConsumerOffset cn st.offsets
  let p := iterOutbox cur st.outbox
  driverLoop cn batch clock p.2 p.1 cur st.offsets st.db 0 0 0

/-! ## Concrete fixtures used by witnesses -/

/-- A concrete stored row with `message_id` `"m1"`. -/
def c1row0 : Row :=
  { id := 1, message_id := "m1", message_content := "x", published_at := "t",
    received_at := "t", is_duplicate := 0, transport_id := none, source := none,
    producer_name := "p", raw_payload := "r" }

/-- The result of inserting a payload with the already-present `message_id`
`"m1"` into the one-row store `[c1row0]`. -/
def c1pair : List Row × Row :=
  (insertMessageFromPayload [("message_id", Json.str "m1"), ("content", Json.str "hello")]
    none none "consumer-stub" "2024-01-01T00:00:00Z" [c1row0]).toOption.getD ([], c1row0)

/-- The store after that insert. -/
def c1db2 : List Row := c1pair.1


/-- The decoded (canonical) form of an appended envelope: `json.loads` of the
`sort_keys=True` serialization returns the same dict with keys in sorted
order — equal to the appended envelope as a Python dict (Python `==` ignores
key order), and the form in which the consumer sees it. -/
def canonEnvelope (payload : List (String × Json)) (source tid now : String) : Json :=
  .obj [("payload", .obj (sortFields payload)), ("queued_at", .str now),
        ("source", .str source), ("transport_id", .str tid)]

/-- A payload dict is flat when every field holds a string (true of every
payload built by `create_payload`). -/
def strValued (fields : List (String × Json)) : Prop :=
  ∀ p ∈ fields, ∃ s, p.2 = Json.str s

/-- One `append_outbox_message` call as a black-box operation (payload plus
the run-time inputs: the appending actor label, the drawn transport uuid, and
the clock reading). -/
structure AppendOp where
  payload : List (String × Json)
  source : String
  tid : String
  now : String

/-- Apply one append to the outbox file (creating it on first use). -/
def applyAppend (ob : Option (List String)) (op : AppendOp) : Option (List String) :=
  some (appendOutboxMessage op.payload op.source op.tid op.now ob).1

/-- The outbox file after a sequence of appends. -/
def appendAll (ops : List AppendOp) (ob : Option (List String)) : Option (List String) :=
  List.foldl applyAppend ob ops

/-- A concrete append operation used by witnesses. -/
def c2op : AppendOp :=
  ⟨[("message_id", Json.str "m1"), ("content", Json.str "hello")],
   "local-script", "tid-1", "2024-01-01T00:00:00Z"⟩

/-- An outbox entry the Message Store insert accepts: the envelope's
`payload` field is usable as a dict and its `message_id` and `content` are
non-blank after stripping — insert success depends only on these, never on
the current table contents. -/
def goodEntry (e : Nat × Json) : Prop :=
  ∃ pfs, envelopePayload e.2 = some pfs ∧
    payloadField pfs "message_id" ≠ "" ∧ payloadField pfs "content" ≠ ""

/-! ## Helper lemmas: offset store -/

theorem lookupOffset_updateOffset_self (l : List (String × Int)) (k : String) (v : Int) :
    lookupOffset (updateOffset l k v) k = some v := by
  induction l with
  | nil => simp [updateOffset, lookupOffset]
  | cons p t ih =>
    simp only [updateOffset]
    split
    · simp [lookupOffset]
    · simp only [lookupOffset]
      rw [if_neg (by assumption)]
      exact ih

theorem lookupOffset_updateOffset_other (l : List (String × Int)) (k m : String) (v : Int)
    (hm : m ≠ k) : lookupOffset (updateOffset l k v) m = lookupOffset l m := by
  induction l with
  | nil =>
    simp only [updateOffset, lookupOffset]
    rw [if_neg (fun h => hm h.symm)]
  | cons p t ih =>
    simp only [updateOffset]
    split
    · next hp =>
      simp only [lookupOffset]
      rw [if_neg (fun h => hm h.symm), if_neg (fun h => hm (hp ▸ h).symm)]
    · simp only [lookupOffset, ih]

theorem loadConsumerStateMap_obj_int (l : List (String × Int)) :
    loadConsumerStateMap (.obj (l.map (fun p => (p.1, OffVal.int p.2)))) = l := by
  induction l with
  | nil => rfl
  | cons p t ih =>
    simp only [loadConsumerStateMap, List.map_cons, List.filterMap_cons] at *
    simpa using ih

theorem getConsumerOffset_setConsumerOffset_self (name : String) (k : Int) (f : StateFile) :
    getConsumerOffset name (setConsumerOffset name k f) = max 0 k := by
  simp only [getConsumerOffset, setConsumerOffset, loadConsumerStateMap_obj_int,
    lookupOffset_updateOffset_self, Option.getD_some]

theorem getConsumerOffset_setConsumerOffset_other (name m : String) (k : Int) (f : StateFile)
    (hm : m ≠ name) :
    getConsumerOffset m (setConsumerOffset name k f) = getConsumerOffset m f := by
  simp only [getConsumerOffset, setConsumerOffset, loadConsumerStateMap_obj_int,
    lookupOffset_updateOffset_other _ _ _ _ hm]

/-! ## Claim C4 -/

/-- C4 counterexample: the claim quantifies the `get`-after-`set` round-trip
over all integers `k`, but `set_consumer_offset` persists `max(0, k)`: after
`set("consumer-stub", -1)` on a fresh store, `get` returns 0, not -1. -/
theorem c4_counterexample :
    getConsumerOffset "consumer-stub"
      (setConsumerOffset "consumer-stub" (-1) StateFile.missing) = 0 ∧
    (0 : Int) ≠ -1 := by
  constructor
  · rfl
  · decide

/-- C4 (amended): for every consumer name and integer `k`, `get(name)` right
after `set(name, k)` returns `max(0, k)` — hence `k` itself whenever
`k ≥ 0` — and `set(name, k)` never changes the offset `get` reports for any
other consumer name. -/
theorem c4_offset_roundtrip_and_isolation (name : String) (k : Int) (f : StateFile) :
    getConsumerOffset name (setConsumerOffset name k f) = max 0 k ∧
    (0 ≤ k → getConsumerOffset name (setConsumerOffset name k f) = k) ∧
    (∀ m, m ≠ name → getConsumerOffset m (setConsumerOffset name k f) = getConsumerOffset m f) := by
  refine ⟨getConsumerOffset_setConsumerOffset_self name k f, ?_, ?_⟩
  · intro hk
    rw [getConsumerOffset_setConsumerOffset_self name k f]
    omega
  · intro m hm
    exact getConsumerOffset_setConsumerOffset_other name m k f hm

/-- C4 witness: the amended theorem applied at consumer `"consumer-stub"`,
`k = 5`, on a store already holding another consumer's offset. -/
theorem c4_offset_roundtrip_and_isolation_witness :
    getConsumerOffset "consumer-stub"
      (setConsumerOffset "consumer-stub" 5 (StateFile.obj [("other", OffVal.int 7)])) = 5 ∧
    getConsumerOffset "other"
      (setConsumerOffset "consumer-stub" 5 (StateFile.obj [("other", OffVal.int 7)])) =
      getConsumerOffset "other" (StateFile.obj [("other", OffVal.int 7)]) := by
  exact ⟨(c4_offset_roundtrip_and_isolation "consumer-stub" 5
      (StateFile.obj [("other", OffVal.int 7)])).2.1 (by decide),
    (c4_offset_roundtrip_and_isolation "consumer-stub" 5
      (StateFile.obj [("other", OffVal.int 7)])).2.2 "other" (by decide)⟩

/-! ## Claim C9 -/

/-- C9: if the offset-store file exists but is unreadable, is not valid JSON,
or is not a JSON object, `_load_consumer_state_map` silently yields `{}`, so
`set(name, k)` rewrites the store to an object holding only
`name ↦ max(0, k)` — every other consumer's persisted offset is discarded.
(With a missing or well-formed store, C4 shows other consumers are
preserved.) -/
theorem c9_corrupt_store_set_discards_others (name : String) (k : Int) :
    setConsumerOffset name k StateFile.unreadable =
      StateFile.obj [(name, OffVal.int (max 0 k))] ∧
    setConsumerOffset name k StateFile.invalidJson =
      StateFile.obj [(name, OffVal.int (max 0 k))] ∧
    setConsumerOffset name k StateFile.nonObject =
      StateFile.obj [(name, OffVal.int (max 0 k))] := by
  exact ⟨rfl, rfl, rfl⟩

/-! ## Claim C5 -/

/-- C5 counterexample: an *empty* `message_id` argument is falsy in Python, so
`create_payload` replaces it with a freshly generated uuid and succeeds — it
does not fail validation as the claim states.  (`genId` stands for the drawn
`str(uuid.uuid4())`.) -/
theorem c5_counterexample :
    createPayload "hello" (some "") "local-producer" none
      "11111111-1111-1111-1111-111111111111" "2024-01-01T00:00:00Z" =
    .ok [("message_id", Json.str "11111111-1111-1111-1111-111111111111"),
         ("content", Json.str "hello"),
         ("published_at", Json.str "2024-01-01T00:00:00Z"),
         ("producer_name", Json.str "local-producer")] := by
  rfl

/-- C5 (amended): `create_payload` is pure (it performs no durable write); a
content that is empty or whitespace-only always fails validation, and a
*supplied, non-empty but whitespace-only* `message_id` fails validation
whenever content passes.  (An absent or empty-string `message_id` is falsy
and is instead replaced by a generated uuid, per the counterexample.) -/
theorem c5_blank_inputs_fail_validation (content : String) (message_id : Option String)
    (producer_name : String) (user_name : Option String) (genId now : String) :
    (pyStrip content = "" →
      createPayload content message_id producer_name user_name genId now =
        .error "Message content is required.") ∧
    (∀ s, message_id = some s → s ≠ "" → pyStrip s = "" → pyStrip content ≠ "" →
      createPayload content message_id producer_name user_name genId now =
        .error "Message ID cannot be blank.") := by
  constructor
  · intro h
    simp [createPayload, h]
  · intro s hs hne hblank hcontent
    subst hs
    simp [createPayload, hne, hblank, hcontent]

/-- C5 witness: the amended theorem applied to a whitespace-only content and
to a whitespace-only supplied `message_id`. -/
theorem c5_blank_inputs_fail_validation_witness :
    createPayload "   " none "p" none "g" "t" = .error "Message content is required." ∧
    createPayload "hello" (some "  ") "p" none "g" "t" =
      .error "Message ID cannot be blank." := by
  exact ⟨(c5_blank_inputs_fail_validation "   " none "p" none "g" "t").1 (by decide),
    (c5_blank_inputs_fail_validation "hello" (some "  ") "p" none "g" "t").2
      "  " rfl (by decide) (by decide) (by decide)⟩

/-! ## Helper lemmas: message-store insert -/

theorem insert_ok_dest (payload : List (String × Json)) (tid src : Option Json)
    (cn now : String) (db db2 : List Row) (row : Row)
    (h : insertMessageFromPayload payload tid src cn now db = .ok (db2, row)) :
    db2 = db ++ [row] ∧
    row.message_id = payloadField payload "message_id" ∧
    row.is_duplicate =
      (if db.any (fun r => r.message_id = payloadField payload "message_id") then 1 else 0) ∧
    row.published_at =
      (if payloadField payload "published_at" = "" then now
       else payloadField payload "published_at") ∧
    row.producer_name =
      (if payloadField payload "producer_name" = "" then "unknown-producer"
       else payloadField payload "producer_name") := by
  simp only [insertMessageFromPayload] at h
  split at h
  · exact absurd h (by simp)
  · split at h
    · exact absurd h (by simp)
    · simp only [Except.ok.injEq, Prod.mk.injEq] at h
      obtain ⟨hdb, hrow⟩ := h
      subst hdb
      subst hrow
      exact ⟨rfl, rfl, rfl, rfl, rfl⟩

theorem insert_error_mid (payload : List (String × Json)) (tid src : Option Json)
    (cn now : String) (db : List Row)
    (h : payloadField payload "message_id" = "") :
    insertMessageFromPayload payload tid src cn now db =
      .error "Payload missing required field: message_id" := by
  simp [insertMessageFromPayload, h]

theorem insert_error_content (payload : List (String × Json)) (tid src : Option Json)
    (cn now : String) (db : List Row)
    (h1 : payloadField payload "message_id" ≠ "")
    (h2 : payloadField payload "content" = "") :
    insertMessageFromPayload payload tid src cn now db =
      .error "Payload missing required field: content" := by
  simp [insertMessageFromPayload, h1, h2]

theorem insert_ok_exists (payload : List (String × Json)) (tid src : Option Json)
    (cn now : String) (db : List Row)
    (h1 : payloadField payload "message_id" ≠ "")
    (h2 : payloadField payload "content" ≠ "") :
    ∃ db2 row, insertMessageFromPayload payload tid src cn now db = .ok (db2, row) := by
  simp only [insertMessageFromPayload, if_neg h1, if_neg h2]
  exact ⟨_, _, rfl⟩

/-! ## Claim C1 -/

/-- C1: every successful insert appends exactly one new row, and that row's
duplicate flag is 1 exactly when some row already in the store has the same
`message_id` (0 exactly when none does).  In particular, inserting a
`message_id` twice flags the second row and not the first, and inserting two
distinct `message_id`s flags neither. -/
theorem c1_insert_appends_one_row_duplicate_iff
    (payload : List (String × Json)) (tid src : Option Json) (cn now : String)
    (db db2 : List Row) (row : Row)
    (h : insertMessageFromPayload payload tid src cn now db = .ok (db2, row)) :
    db2 = db ++ [row] ∧
    (row.is_duplicate = 1 ↔ ∃ r ∈ db, r.message_id = row.message_id) ∧
    (row.is_duplicate = 0 ↔ ¬ ∃ r ∈ db, r.message_id = row.message_id) := by
  obtain ⟨hdb, hmid, hdup, -, -⟩ := insert_ok_dest payload tid src cn now db db2 row h
  refine ⟨hdb, ?_, ?_⟩ <;> rw [hdup, hmid] <;>
    by_cases hany : db.any (fun r => r.message_id = row.message_id) = true <;>
    simp_all [List.any_eq_true]

/-- C1 witness: applying the theorem to a store already holding a row with
`message_id` `"m1"`; the inserted row is appended and flagged duplicate. -/
theorem c1_insert_appends_one_row_duplicate_iff_witness :
    c1db2 = [c1row0] ++ [c1pair.2] ∧
    (c1pair.2.is_duplicate = 1 ↔ ∃ r ∈ [c1row0], r.message_id = c1pair.2.message_id) := by
  have h := c1_insert_appends_one_row_duplicate_iff
    [("message_id", Json.str "m1"), ("content", Json.str "hello")]
    none none "consumer-stub" "2024-01-01T00:00:00Z" [c1row0] c1db2 c1pair.2 rfl
  exact ⟨h.1, h.2.1⟩

/-! ## Claim C10 -/

/-- C10: insert never fails on a missing/blank `published_at` or
`producer_name` — they fall back to the insert-time timestamp and
`"unknown-producer"`; only `message_id` and `content` are validated, and
`message_id` is checked first, so a payload missing both reports
`message_id`. -/
theorem c10_insert_blank_defaults (payload : List (String × Json))
    (tid src : Option Json) (cn now : String) (db : List Row) :
    (payloadField payload "message_id" ≠ "" → payloadField payload "content" ≠ "" →
      ∃ db2 row, insertMessageFromPayload payload tid src cn now db = .ok (db2, row) ∧
        row.published_at =
          (if payloadField payload "published_at" = "" then now
           else payloadField payload "published_at") ∧
        row.producer_name =
          (if payloadField payload "producer_name" = "" then "unknown-producer"
           else payloadField payload "producer_name")) ∧
    (payloadField payload "message_id" = "" →
      insertMessageFromPayload payload tid src cn now db =
        .error "Payload missing required field: message_id") := by
  constructor
  · intro h1 h2
    obtain ⟨db2, row, hok⟩ := insert_ok_exists payload tid src cn now db h1 h2
    obtain ⟨-, -, -, hpub, hprod⟩ := insert_ok_dest payload tid src cn now db db2 row hok
    exact ⟨db2, row, hok, hpub, hprod⟩
  · exact insert_error_mid payload tid src cn now db

/-- C10 witness: the theorem applied to a payload carrying only `message_id`
and `content` (blank `published_at`/`producer_name`), and to a payload with a
blank `message_id` and blank `content` (the error names `message_id`). -/
theorem c10_insert_blank_defaults_witness :
    (∃ db2 row,
      insertMessageFromPayload [("message_id", Json.str "m2"), ("content", Json.str "hi")]
        none none "consumer-stub" "T0" [] = .ok (db2, row) ∧
      row.published_at =
        (if payloadField [("message_id", Json.str "m2"), ("content", Json.str "hi")]
            "published_at" = "" then "T0"
         else payloadField [("message_id", Json.str "m2"), ("content", Json.str "hi")]
            "published_at") ∧
      row.producer_name =
        (if payloadField [("message_id", Json.str "m2"), ("content", Json.str "hi")]
            "producer_name" = "" then "unknown-producer"
         else payloadField [("message_id", Json.str "m2"), ("content", Json.str "hi")]
            "producer_name")) ∧
    insertMessageFromPayload [("message_id", Json.str "  ")] none none "consumer-stub"
      "T0" [] = .error "Payload missing required field: message_id" := by
  exact ⟨(c10_insert_blank_defaults
      [("message_id", Json.str "m2"), ("content", Json.str "hi")]
      none none "consumer-stub" "T0" []).1 (by decide) (by decide),
    (c10_insert_blank_defaults [("message_id", Json.str "  ")]
      none none "consumer-stub" "T0" []).2 (by decide)⟩

/-! ## Helper lemmas: duplicate-flag invariant and summary -/

theorem applyInsert_flags (db : List Row)
    (hdb : ∀ r ∈ db, r.is_duplicate = 0 ∨ r.is_duplicate = 1) (op : InsOp) :
    ∀ r ∈ applyInsert db op, r.is_duplicate = 0 ∨ r.is_duplicate = 1 := by
  unfold applyInsert
  split
  · next db2 row h =>
    obtain ⟨hdb2, -, hdup, -, -⟩ :=
      insert_ok_dest op.payload op.transport_id op.source op.consumer_name op.now db db2 row h
    subst hdb2
    intro r hr
    rcases List.mem_append.1 hr with hr | hr
    · exact hdb r hr
    · rcases List.mem_singleton.1 hr with rfl
      rw [hdup]
      split
      · right; rfl
      · left; rfl
  · exact hdb

theorem foldl_applyInsert_flags (ops : List InsOp) (db : List Row)
    (hdb : ∀ r ∈ db, r.is_duplicate = 0 ∨ r.is_duplicate = 1) :
    ∀ r ∈ List.foldl applyInsert db ops, r.is_duplicate = 0 ∨ r.is_duplicate = 1 := by
  induction ops generalizing db with
  | nil => exact hdb
  | cons op t ih =>
    exact ih (applyInsert db op) (applyInsert_flags db hdb op)

theorem sum_flags_eq_count_ones (l : List Row)
    (hl : ∀ r ∈ l, r.is_duplicate = 0 ∨ r.is_duplicate = 1) :
    (l.map (fun r => r.is_duplicate)).sum =
      (l.filter (fun r => r.is_duplicate = 1)).length := by
  induction l with
  | nil => rfl
  | cons r t ih =>
    have hr := hl r (List.mem_cons_self r t)
    have ht := ih (fun x hx => hl x (List.mem_cons_of_mem r hx))
    simp only [List.map_cons, List.sum_cons, List.filter_cons]
    rcases hr with h0 | h1
    · rw [h0]
      rw [if_neg (by simp [h0])]
      omega
    · rw [h1]
      rw [if_pos (by simp [h1])]
      simp only [List.length_cons]
      omega

/-! ## Claim C7 -/

/-- C7: after any sequence of inserts starting from an empty store,
`get_summary` reports `db_total` equal to the number of rows and
`db_duplicates` equal to the number of rows whose duplicate flag is set. -/
theorem c7_summary_counts (ops : List InsOp) (ob : Option (List String)) :
    (getSummary (runInserts ops) ob).db_total = (runInserts ops).length ∧
    (getSummary (runInserts ops) ob).db_duplicates =
      ((runInserts ops).filter (fun r => r.is_duplicate = 1)).length := by
  refine ⟨rfl, ?_⟩
  exact sum_flags_eq_count_ones (runInserts ops)
    (foldl_applyInsert_flags ops [] (by intro r hr; cases hr))

/-! ## Helper lemmas: the escape/parse round trip -/

theorem fromHexDigit_hexDigitChar (n : Nat) (h : n < 16) :
    fromHexDigit (hexDigitChar n) = some n := by
  interval_cases n <;> rfl

theorem hexDigitChar_printable (n : Nat) :
    0x20 ≤ (hexDigitChar n).toNat ∧ (hexDigitChar n).toNat ≤ 0x7e := by
  unfold hexDigitChar
  split <;> decide

theorem char_valid_nat (c : Char) :
    c.toNat < 0xd800 ∨ (0xe000 ≤ c.toNat ∧ c.toNat < 0x110000) := c.valid

theorem skipWs_cons_of_not_ws (c : Char) (r : List Char) (h : jsonWs c = false) :
    skipWs (c :: r) = c :: r := by
  simp [skipWs, List.dropWhile_cons, h]

theorem skipWs_cons_of_ws (c : Char) (r : List Char) (h : jsonWs c = true) :
    skipWs (c :: r) = skipWs r := by
  simp [skipWs, List.dropWhile_cons, h]

theorem psb_quote (r : List Char) : parseStrBody ('"' :: r) = some ([], r) := by
  rw [parseStrBody.eq_def]; rfl

theorem psb_esc_quote (r : List Char) :
    parseStrBody ('\\' :: '"' :: r) =
      match parseStrBody r with
      | some (cs, rest) => some ('"' :: cs, rest)
      | none => none := by
  conv_lhs => rw [parseStrBody.eq_def]
  rfl

theorem psb_esc_backslash (r : List Char) :
    parseStrBody ('\\' :: '\\' :: r) =
      match parseStrBody r with
      | some (cs, rest) => some ('\\' :: cs, rest)
      | none => none := by
  conv_lhs => rw [parseStrBody.eq_def]
  rfl

theorem psb_esc_n (r : List Char) :
    parseStrBody ('\\' :: 'n' :: r) =
      match parseStrBody r with
      | some (cs, rest) => some ('\n' :: cs, rest)
      | none => none := by
  conv_lhs => rw [parseStrBody.eq_def]
  rfl

theorem psb_esc_t (r : List Char) :
    parseStrBody ('\\' :: 't' :: r) =
      match parseStrBody r with
      | some (cs, rest) => some ('\t' :: cs, rest)
      | none => none := by
  conv_lhs => rw [parseStrBody.eq_def]
  rfl

theorem psb_esc_r (r : List Char) :
    parseStrBody ('\\' :: 'r' :: r) =
      match parseStrBody r with
      | some (cs, rest) => some ('\r' :: cs, rest)
      | none => none := by
  conv_lhs => rw [parseStrBody.eq_def]
  rfl

theorem psb_esc_b (r : List Char) :
    parseStrBody ('\\' :: 'b' :: r) =
      match parseStrBody r with
      | some (cs, rest) => some ('\x08' :: cs, rest)
      | none => none := by
  conv_lhs => rw [parseStrBody.eq_def]
  rfl

theorem psb_esc_f (r : List Char) :
    parseStrBody ('\\' :: 'f' :: r) =
      match parseStrBody r with
      | some (cs, rest) => some ('\x0c' :: cs, rest)
      | none => none := by
  conv_lhs => rw [parseStrBody.eq_def]
  rfl

theorem psb_plain (c : Char) (r : List Char) (h1 : c ≠ '"') (h2 : c ≠ '\\') :
    parseStrBody (c :: r) =
      match parseStrBody r with
      | some (cs, rest) => some (c :: cs, rest)
      | none => none := by
  conv_lhs => rw [parseStrBody.eq_def]
  simp only [if_neg h1, if_neg h2]

theorem psb_u (x : List Char) (ch : Char) (r2 : List Char)
    (h : parseUEsc x = some (ch, r2)) :
    parseStrBody ('\\' :: 'u' :: x) =
      match parseStrBody r2 with
      | some (cs, rest) => some (ch :: cs, rest)
      | none => none := by
  conv_lhs => rw [parseStrBody.eq_def]
  try dsimp only
  rw [if_neg (show ('\\' : Char) ≠ '"' by decide), if_pos (rfl : ('\\' : Char) = '\\')]
  try dsimp only
  rw [if_pos (rfl : ('u' : Char) = 'u')]
  split
  · next ch2 r2x heq =>
    rw [h] at heq
    simp only [Option.some.injEq, Prod.mk.injEq] at heq
    obtain ⟨rfl, rfl⟩ := heq
    rfl
  · next heq => rw [h] at heq; cases heq

theorem parseHex4_hex4 (n : Nat) (r : List Char) (hlt : n < 0x10000) :
    parseHex4 (hex4 n ++ r) = some (n, r) := by
  have ha : n / 4096 % 16 < 16 := Nat.mod_lt _ (by norm_num)
  have hb : n / 256 % 16 < 16 := Nat.mod_lt _ (by norm_num)
  have hc : n / 16 % 16 < 16 := Nat.mod_lt _ (by norm_num)
  have hd : n % 16 < 16 := Nat.mod_lt _ (by norm_num)
  have hn : n / 4096 % 16 * 4096 + n / 256 % 16 * 256 + n / 16 % 16 * 16 + n % 16 = n := by
    omega
  simp only [hex4, List.cons_append, List.nil_append, parseHex4,
    fromHexDigit_hexDigitChar _ ha, fromHexDigit_hexDigitChar _ hb,
    fromHexDigit_hexDigitChar _ hc, fromHexDigit_hexDigitChar _ hd, hn]

theorem parseUEsc_hex4_bmp (n : Nat) (r : List Char) (hlt : n < 0x10000)
    (hs1 : ¬(0xd800 ≤ n ∧ n < 0xdc00)) (hs2 : ¬(0xdc00 ≤ n ∧ n < 0xe000)) :
    parseUEsc (hex4 n ++ r) = some (Char.ofNat n, r) := by
  rw [parseUEsc.eq_def]
  rw [parseHex4_hex4 n r hlt]
  try dsimp only
  rw [if_neg hs1, if_neg hs2]

theorem parseUEsc_hex4_astral (n : Nat) (r : List Char)
    (hge : 0x10000 ≤ n) (hlt : n < 0x110000) :
    parseUEsc (hex4 (0xd800 + (n - 0x10000) / 0x400) ++
      ('\\' :: 'u' :: (hex4 (0xdc00 + (n - 0x10000) % 0x400) ++ r))) =
      some (Char.ofNat n, r) := by
  have hdiv : (n - 0x10000) / 0x400 < 0x400 := by omega
  have hmod : (n - 0x10000) % 0x400 < 0x400 := Nat.mod_lt _ (by norm_num)
  rw [parseUEsc.eq_def]
  rw [parseHex4_hex4 (0xd800 + (n - 0x10000) / 0x400)
    ('\\' :: 'u' :: (hex4 (0xdc00 + (n - 0x10000) % 0x400) ++ r)) (by omega)]
  try dsimp only
  rw [if_pos (by omega : 0xd800 ≤ 0xd800 + (n - 0x10000) / 0x400 ∧
    0xd800 + (n - 0x10000) / 0x400 < 0xdc00)]
  try dsimp only
  rw [if_pos (⟨rfl, rfl⟩ : ('\\' : Char) = '\\' ∧ ('u' : Char) = 'u')]
  rw [parseHex4_hex4 (0xdc00 + (n - 0x10000) % 0x400) r (by omega)]
  try dsimp only
  rw [if_pos (by omega : 0xdc00 ≤ 0xdc00 + (n - 0x10000) % 0x400 ∧
    0xdc00 + (n - 0x10000) % 0x400 < 0xe000)]
  have hcomb : 0x10000 + (0xd800 + (n - 0x10000) / 0x400 - 0xd800) * 1024 +
      (0xdc00 + (n - 0x10000) % 0x400 - 0xdc00) = n := by omega
  rw [hcomb]

theorem parseStrBody_escString (s r : List Char) :
    parseStrBody (escString s ++ '"' :: r) = some (s, r) := by
  induction s with
  | nil =>
    have : escString [] = [] := rfl
    rw [this, List.nil_append, psb_quote]
  | cons c t ih =>
    have hflat : escString (c :: t) = escChar c ++ escString t := by
      simp [escString]
    rw [hflat, List.append_assoc]
    unfold escChar
    split_ifs with h1 h2 h3 h4 h5 h6 h7 h8 h9
    · subst h1
      simp only [List.cons_append, List.nil_append, psb_esc_quote, ih]
    · subst h2
      simp only [List.cons_append, List.nil_append, psb_esc_backslash, ih]
    · subst h3
      simp only [List.cons_append, List.nil_append, psb_esc_n, ih]
    · subst h4
      simp only [List.cons_append, List.nil_append, psb_esc_t, ih]
    · subst h5
      simp only [List.cons_append, List.nil_append, psb_esc_r, ih]
    · subst h6
      simp only [List.cons_append, List.nil_append, psb_esc_b, ih]
    · subst h7
      simp only [List.cons_append, List.nil_append, psb_esc_f, ih]
    · simp only [List.cons_append, List.nil_append, psb_plain c _ h1 h2, ih]
    · -- BMP `\uXXXX`
      have hv := char_valid_nat c
      have hs1 : ¬(0xd800 ≤ c.toNat ∧ c.toNat < 0xdc00) := by omega
      have hs2 : ¬(0xdc00 ≤ c.toNat ∧ c.toNat < 0xe000) := by omega
      rw [List.cons_append, List.cons_append,
        psb_u _ _ _ (parseUEsc_hex4_bmp c.toNat _ h9 hs1 hs2), ih, Char.ofNat_toNat]
    · -- astral code point: surrogate pair
      have hv := char_valid_nat c
      have hge : 0x10000 ≤ c.toNat := by omega
      have hlt : c.toNat < 0x110000 := by omega
      simp only [List.cons_append, List.nil_append, List.append_assoc]
      rw [psb_u _ _ _ (parseUEsc_hex4_astral c.toNat _ hge hlt), ih, Char.ofNat_toNat]

/-! ## Helper lemmas: serializer equations and object-level round trip -/

theorem dumpsL_str (s : String) : dumpsL (Json.str s) = dumpStr s := by
  simp only [dumpsL]

theorem dumpsL_obj (fs : List (String × Json)) :
    dumpsL (Json.obj fs) = '{' :: dumpMembers (sortFields fs) ++ ['}'] := by
  simp only [dumpsL]

theorem dumpMembers_single (k : String) (v : Json) :
    dumpMembers [(k, v)] = dumpStr k ++ ':' :: ' ' :: dumpsL v := by
  simp only [dumpMembers]

theorem dumpMembers_cons2 (k : String) (v : Json) (q : String × Json)
    (rest : List (String × Json)) :
    dumpMembers ((k, v) :: q :: rest) =
      dumpStr k ++ ':' :: ' ' :: dumpsL v ++ ',' :: ' ' :: dumpMembers (q :: rest) := by
  conv_lhs => rw [dumpMembers.eq_def]

theorem skipWs_not_ws (c : Char) (r : List Char) (h : jsonWs c = false) :
    skipWs (c :: r) = c :: r := skipWs_cons_of_not_ws c r h

theorem parseJson_dumpStr (f : Nat) (s : String) (r : List Char) :
    parseJson (f + 1) (dumpStr s ++ r) = some (.str s, r) := by
  have hshape : dumpStr s ++ r = '"' :: (escString s.data ++ '"' :: r) := by
    simp [dumpStr]
  rw [hshape]
  simp only [parseJson]
  rw [skipWs_not_ws '"' _ (by decide)]
  try dsimp only
  rw [if_pos rfl, parseStrBody_escString]

theorem skipWs_quote (r : List Char) : skipWs ('"' :: r) = '"' :: r :=
  skipWs_not_ws _ _ (by decide)

theorem skipWs_colon (r : List Char) : skipWs (':' :: r) = ':' :: r :=
  skipWs_not_ws _ _ (by decide)

theorem skipWs_comma (r : List Char) : skipWs (',' :: r) = ',' :: r :=
  skipWs_not_ws _ _ (by decide)

theorem skipWs_rbrace (r : List Char) : skipWs ('}' :: r) = '}' :: r :=
  skipWs_not_ws _ _ (by decide)

theorem skipWs_space (r : List Char) : skipWs (' ' :: r) = skipWs r :=
  skipWs_cons_of_ws _ _ (by decide)

theorem skipWs_dumpStr_append (s : String) (X : List Char) :
    skipWs (dumpStr s ++ X) = dumpStr s ++ X := by
  have h : dumpStr s ++ X = '"' :: (escString s.data ++ '"' :: X) := by
    simp [dumpStr]
  rw [h, skipWs_quote]

theorem skipWs_dumpMembers_cons (q : String × Json) (t : List (String × Json))
    (Y : List Char) :
    skipWs (dumpMembers (q :: t) ++ Y) = dumpMembers (q :: t) ++ Y := by
  obtain ⟨k, v⟩ := q
  obtain ⟨T, hT⟩ : ∃ T, dumpMembers ((k, v) :: t) ++ Y = '"' :: T := by
    cases t with
    | nil =>
      exact ⟨escString k.data ++ '"' :: (':' :: ' ' :: dumpsL v ++ Y),
        by rw [dumpMembers_single]; simp [dumpStr]⟩
    | cons q2 t2 =>
      exact ⟨escString k.data ++ '"' :: (':' :: ' ' :: (dumpsL v ++
          ',' :: ' ' :: dumpMembers (q2 :: t2) ++ Y)),
        by rw [dumpMembers_cons2]; simp [dumpStr]⟩
  rw [hT, skipWs_quote]

theorem parseMembers_strMember (f : Nat) (k s : String) (X : List Char) :
    parseMembers ((f + 1) + 1) ((dumpStr k ++ ':' :: ' ' :: dumpStr s) ++ X) =
      (match skipWs X with
       | [] => none
       | c3 :: r4 =>
         if c3 = ',' then
           match parseMembers (f + 1) (skipWs r4) with
           | some (.obj fs, rest) => some (.obj ((k, Json.str s) :: fs), rest)
           | _ => none
         else if c3 = '}' then some (.obj [(k, Json.str s)], r4)
         else none) := by
  have hshape : (dumpStr k ++ ':' :: ' ' :: dumpStr s) ++ X =
      '"' :: (escString k.data ++ '"' :: (':' :: ' ' :: (dumpStr s ++ X))) := by
    simp [dumpStr]
  rw [hshape]
  conv_lhs => rw [parseMembers]
  try dsimp only
  rw [if_pos rfl, parseStrBody_escString]
  try dsimp only
  rw [skipWs_colon]
  try dsimp only
  rw [if_pos rfl, skipWs_space, skipWs_dumpStr_append, parseJson_dumpStr]
  try dsimp only

theorem parseMembers_strFields :
    ∀ (fields : List (String × Json)) (f : Nat) (r : List Char),
      fields ≠ [] → strValued fields →
      parseMembers (f + fields.length + 1) (dumpMembers fields ++ '}' :: r) =
        some (.obj fields, r) := by
  intro fields
  induction fields with
  | nil => intro f r hne _; exact absurd rfl hne
  | cons kv t ih =>
    intro f r _ hflat
    obtain ⟨k, v⟩ := kv
    obtain ⟨s, hs⟩ := hflat (k, v) (List.mem_cons_self _ _)
    dsimp only at hs
    subst hs
    cases t with
    | nil =>
      rw [dumpMembers_single, dumpsL_str]
      have hlen : f + [(k, Json.str s)].length + 1 = (f + 1) + 1 := by simp
      rw [hlen]
      have hshape : dumpStr k ++ ':' :: ' ' :: dumpStr s ++ '}' :: r =
          (dumpStr k ++ ':' :: ' ' :: dumpStr s) ++ '}' :: r := by simp
      rw [hshape, parseMembers_strMember f k s ('}' :: r), skipWs_rbrace]
      try dsimp only
      rw [if_neg (by decide), if_pos rfl]
    | cons q t2 =>
      rw [dumpMembers_cons2, dumpsL_str]
      have hlen : f + ((k, Json.str s) :: q :: t2).length + 1 =
          ((f + t2.length + 1) + 1) + 1 := by
        simp only [List.length_cons]
        omega
      rw [hlen]
      have hshape : dumpStr k ++ ':' :: ' ' :: dumpStr s ++ ',' :: ' ' ::
            dumpMembers (q :: t2) ++ '}' :: r =
          (dumpStr k ++ ':' :: ' ' :: dumpStr s) ++
            (',' :: ' ' :: (dumpMembers (q :: t2) ++ '}' :: r)) := by simp
      rw [hshape, parseMembers_strMember (f + t2.length + 1) k s _, skipWs_comma]
      try dsimp only
      rw [if_pos rfl, skipWs_space, skipWs_dumpMembers_cons]
      have hih := ih f r (by simp) (fun p hp => hflat p (List.mem_cons_of_mem _ hp))
      have hlen2 : f + (q :: t2).length + 1 = (f + t2.length + 1) + 1 := by
        simp only [List.length_cons]
        omega
      rw [hlen2] at hih
      rw [hih]

theorem mem_insertField (kv p : String × Json) (l : List (String × Json)) :
    p ∈ insertField kv l ↔ p = kv ∨ p ∈ l := by
  induction l with
  | nil => simp [insertField]
  | cons h t ih =>
    simp only [insertField]
    split
    · simp [List.mem_cons]
    · simp only [List.mem_cons, ih]
      tauto

theorem mem_sortFields (p : String × Json) (l : List (String × Json)) :
    p ∈ sortFields l ↔ p ∈ l := by
  induction l with
  | nil => simp [sortFields]
  | cons h t ih =>
    simp only [sortFields, mem_insertField, ih, List.mem_cons]

theorem strValued_sortFields (l : List (String × Json)) (h : strValued l) :
    strValued (sortFields l) :=
  fun p hp => h p ((mem_sortFields p l).1 hp)

theorem length_insertField (kv : String × Json) (l : List (String × Json)) :
    (insertField kv l).length = l.length + 1 := by
  induction l with
  | nil => rfl
  | cons h t ih =>
    simp only [insertField]
    split
    · simp
    · simp [ih]

theorem length_sortFields (l : List (String × Json)) :
    (sortFields l).length = l.length := by
  induction l with
  | nil => rfl
  | cons h t ih => simp [sortFields, length_insertField, ih]

theorem skipWs_lbrace (r : List Char) : skipWs ('{' :: r) = '{' :: r :=
  skipWs_not_ws _ _ (by decide)

theorem dumpMembers_cons_head (q : String × Json) (t : List (String × Json)) :
    ∃ T, dumpMembers (q :: t) = '"' :: T := by
  obtain ⟨k, v⟩ := q
  cases t with
  | nil =>
    exact ⟨escString k.data ++ '"' :: (':' :: ' ' :: dumpsL v),
      by rw [dumpMembers_single]; simp [dumpStr]⟩
  | cons q2 t2 =>
    exact ⟨escString k.data ++ '"' :: (':' :: ' ' :: (dumpsL v ++
        ',' :: ' ' :: dumpMembers (q2 :: t2))),
      by rw [dumpMembers_cons2]; simp [dumpStr]⟩

theorem parseJson_dumpsObj (payload : List (String × Json)) (f : Nat) (r : List Char)
    (hflat : strValued payload) :
    parseJson ((f + (sortFields payload).length + 1) + 1)
      (dumpsL (Json.obj payload) ++ r) = some (.obj (sortFields payload), r) := by
  rw [dumpsL_obj]
  have hshape : ('{' :: dumpMembers (sortFields payload) ++ ['}']) ++ r =
      '{' :: (dumpMembers (sortFields payload) ++ '}' :: r) := by simp
  rw [hshape]
  conv_lhs => rw [parseJson]
  rw [skipWs_lbrace]
  try dsimp only
  rw [if_neg (by decide), if_pos rfl]
  cases hsf : sortFields payload with
  | nil =>
    simp only [dumpMembers, List.nil_append, List.length_nil]
    rw [skipWs_rbrace]
    try dsimp only
    rw [if_pos rfl]
  | cons q t =>
    obtain ⟨T, hT⟩ := dumpMembers_cons_head q t
    rw [hT, List.cons_append, skipWs_quote]
    try dsimp only
    rw [if_neg (by decide)]
    rw [← List.cons_append, ← hT]
    exact parseMembers_strFields (q :: t) f r (by simp)
      (hsf ▸ strValued_sortFields payload hflat)

theorem parseMembers_memberStep (f : Nat) (k : String) (v : Json) (V X : List Char)
    (hskip : skipWs (V ++ X) = V ++ X)
    (hv : parseJson (f + 1) (V ++ X) = some (v, X)) :
    parseMembers ((f + 1) + 1) ((dumpStr k ++ ':' :: ' ' :: V) ++ X) =
      (match skipWs X with
       | [] => none
       | c3 :: r4 =>
         if c3 = ',' then
           match parseMembers (f + 1) (skipWs r4) with
           | some (.obj fs, rest) => some (.obj ((k, v) :: fs), rest)
           | _ => none
         else if c3 = '}' then some (.obj [(k, v)], r4)
         else none) := by
  have hshape : (dumpStr k ++ ':' :: ' ' :: V) ++ X =
      '"' :: (escString k.data ++ '"' :: (':' :: ' ' :: (V ++ X))) := by
    simp [dumpStr]
  rw [hshape]
  conv_lhs => rw [parseMembers]
  try dsimp only
  rw [if_pos rfl, parseStrBody_escString]
  try dsimp only
  rw [skipWs_colon]
  try dsimp only
  rw [if_pos rfl, skipWs_space, hskip, hv]
  try dsimp only

theorem sortFields_mkEnvelope (payload : List (String × Json)) (source tid now : String) :
    sortFields [("transport_id", Json.str tid), ("queued_at", Json.str now),
      ("source", Json.str source), ("payload", Json.obj payload)] =
    [("payload", Json.obj payload), ("queued_at", Json.str now),
     ("source", Json.str source), ("transport_id", Json.str tid)] := by
  simp only [sortFields, insertField]
  norm_num
  rw [if_neg (by decide)]
  simp only [insertField]
  norm_num
  rw [if_neg (by decide), if_pos (by decide)]
  simp only [insertField]
  norm_num
  rw [if_neg (by decide), if_neg (by decide), if_neg (by decide)]

theorem skipWs_dumpsL_obj (fs : List (String × Json)) (X : List Char) :
    skipWs (dumpsL (Json.obj fs) ++ X) = dumpsL (Json.obj fs) ++ X := by
  rw [dumpsL_obj]
  have h : ('{' :: dumpMembers (sortFields fs) ++ ['}']) ++ X =
      '{' :: (dumpMembers (sortFields fs) ++ '}' :: X) := by simp
  rw [h, skipWs_lbrace, ← h]

theorem parseJson_dumpsEnv (payload : List (String × Json)) (source tid now : String)
    (f : Nat) (r : List Char) (hflat : strValued payload) :
    parseJson (f + (sortFields payload).length + 6)
      (dumpsL (mkEnvelope payload source tid now) ++ r) =
      some (canonEnvelope payload source tid now, r) := by
  have hflat3 : strValued [("queued_at", Json.str now), ("source", Json.str source),
      ("transport_id", Json.str tid)] := by
    intro p hp
    simp only [List.mem_cons, List.not_mem_nil, or_false] at hp
    rcases hp with rfl | rfl | rfl <;> exact ⟨_, rfl⟩
  set pl := (sortFields payload).length with hpl
  set V := dumpsL (Json.obj payload) with hV
  set R1 := dumpMembers [("queued_at", Json.str now), ("source", Json.str source),
    ("transport_id", Json.str tid)] with hR1
  rw [mkEnvelope, dumpsL_obj, sortFields_mkEnvelope, dumpMembers_cons2]
  have hshape : ('{' :: (dumpStr "payload" ++ ':' :: ' ' :: dumpsL (Json.obj payload) ++
        ',' :: ' ' :: R1) ++ ['}']) ++ r =
      '{' :: ((dumpStr "payload" ++ ':' :: ' ' :: V) ++
        (',' :: ' ' :: (R1 ++ '}' :: r))) := by
    rw [← hV]
    simp
  rw [hshape]
  have hfuel : f + pl + 6 = ((((f + pl + 3) + 1) + 1) + 1 : Nat) := by omega
  rw [hfuel]
  conv_lhs => rw [parseJson]
  rw [skipWs_lbrace]
  try dsimp only
  rw [if_neg (by decide), if_pos rfl]
  obtain ⟨K, hK⟩ : ∃ K, (dumpStr "payload" ++ ':' :: ' ' :: V) ++
      (',' :: ' ' :: (R1 ++ '}' :: r)) = '"' :: K := by
    exact ⟨escString "payload".data ++ '"' :: (':' :: ' ' :: V ++
        (',' :: ' ' :: (R1 ++ '}' :: r))), by simp [dumpStr]⟩
  rw [hK, skipWs_quote]
  try dsimp only
  rw [if_neg (by decide), ← hK]
  have hv : parseJson ((f + pl + 3) + 1) (V ++ (',' :: ' ' :: (R1 ++ '}' :: r))) =
      some (.obj (sortFields payload), ',' :: ' ' :: (R1 ++ '}' :: r)) := by
    have h := parseJson_dumpsObj payload (f + 2) (',' :: ' ' :: (R1 ++ '}' :: r)) hflat
    have heq : ((f + 2) + (sortFields payload).length + 1) + 1 = ((f + pl + 3) + 1 : Nat) := by
      rw [← hpl]; omega
    rw [heq] at h
    exact h
  rw [parseMembers_memberStep (f + pl + 3) "payload" (.obj (sortFields payload)) V
    (',' :: ' ' :: (R1 ++ '}' :: r)) (by rw [hV, skipWs_dumpsL_obj]) hv]
  rw [skipWs_comma]
  try dsimp only
  rw [if_pos rfl, skipWs_space]
  rw [hR1, skipWs_dumpMembers_cons]
  have hmem := parseMembers_strFields
    [("queued_at", Json.str now), ("source", Json.str source),
     ("transport_id", Json.str tid)] (f + pl) r (by simp) hflat3
  have heq2 : (f + pl) + ([("queued_at", Json.str now), ("source", Json.str source),
      ("transport_id", Json.str tid)]).length + 1 = ((f + pl + 3) + 1 : Nat) := by
    simp only [List.length_cons, List.length_nil]
    try omega
  rw [heq2] at hmem
  rw [hmem]
  rfl

theorem dumpMembers_length_ge (fs : List (String × Json)) :
    fs.length ≤ (dumpMembers fs).length := by
  induction fs with
  | nil => simp [dumpMembers]
  | cons kv t ih =>
    obtain ⟨k, v⟩ := kv
    cases t with
    | nil =>
      rw [dumpMembers_single]
      simp [dumpStr]
    | cons q t2 =>
      rw [dumpMembers_cons2]
      simp only [List.length_append, List.length_cons, List.length_nil] at ih ⊢
      simp [dumpStr]
      omega

theorem dumpsEnv_length_ge (payload : List (String × Json)) (source tid now : String) :
    (sortFields payload).length + 5 ≤ (dumpsL (mkEnvelope payload source tid now)).length := by
  rw [mkEnvelope, dumpsL_obj, sortFields_mkEnvelope, dumpMembers_cons2, dumpsL_obj]
  have h := dumpMembers_length_ge (sortFields payload)
  simp only [List.length_append, List.length_cons, List.length_nil, dumpStr,
    List.length_cons]
  omega

theorem loads_dumps_mkEnvelope (payload : List (String × Json)) (source tid now : String)
    (hflat : strValued payload) :
    loads (dumps (mkEnvelope payload source tid now)) =
      some (canonEnvelope payload source tid now) := by
  have hlen := dumpsEnv_length_ge payload source tid now
  unfold loads dumps
  obtain ⟨g, hg⟩ : ∃ g, (dumpsL (mkEnvelope payload source tid now)).length + 1 =
      g + (sortFields payload).length + 6 :=
    ⟨(dumpsL (mkEnvelope payload source tid now)).length - ((sortFields payload).length + 5),
      by omega⟩
  show (match parseJson ((dumpsL (mkEnvelope payload source tid now)).length + 1)
      (dumpsL (mkEnvelope payload source tid now)) with
    | some (j, rest) => if skipWs rest = [] then some j else none
    | none => none) = some (canonEnvelope payload source tid now)
  rw [hg]
  have h := parseJson_dumpsEnv payload source tid now g [] hflat
  rw [List.append_nil] at h
  rw [h]
  rfl

theorem pyStripL_brace (X : List Char) :
    pyStripL ('{' :: X ++ ['}']) = '{' :: X ++ ['}'] := by
  unfold pyStripL
  rw [show ('{' :: X ++ ['}'] : List Char) = '{' :: (X ++ ['}']) by simp]
  rw [List.dropWhile_cons, if_neg (by decide)]
  rw [show ('{' :: (X ++ ['}']) : List Char) = ('{' :: X) ++ ['}'] by simp,
    List.reverse_append]
  simp only [List.reverse_cons, List.reverse_nil, List.nil_append, List.singleton_append]
  rw [List.dropWhile_cons, if_neg (by decide)]
  simp

theorem pyStrip_dumps_obj (fs : List (String × Json)) :
    pyStrip (dumps (Json.obj fs)) = dumps (Json.obj fs) ∧ dumps (Json.obj fs) ≠ "" := by
  have h : dumps (Json.obj fs) = ⟨'{' :: dumpMembers (sortFields fs) ++ ['}']⟩ := by
    unfold dumps
    rw [dumpsL_obj]
  constructor
  · rw [h]
    show (⟨pyStripL ('{' :: dumpMembers (sortFields fs) ++ ['}'])⟩ : String) = _
    rw [pyStripL_brace]
  · rw [h]
    intro hc
    have : ('{' :: dumpMembers (sortFields fs) ++ ['}'] : List Char) = [] := by
      have := congrArg String.data hc
      simpa using this
    simp at this

/-! ## Helper lemmas: outbox iteration -/

theorem appendAll_lines (ops : List AppendOp) (ob : Option (List String)) :
    outboxLines (appendAll ops ob) =
      outboxLines ob ++ ops.map (fun op => dumps (mkEnvelope op.payload op.source op.tid op.now)) := by
  induction ops generalizing ob with
  | nil => simp [appendAll, outboxLines]
  | cons op t ih =>
    simp only [appendAll, List.foldl_cons, List.map_cons] at *
    rw [ih]
    simp [applyAppend, appendOutboxMessage, outboxLines]

theorem appendAll_cons_some (ops : List AppendOp) (op : AppendOp) (ob : Option (List String)) :
    appendAll (op :: ops) ob = some (outboxLines (appendAll (op :: ops) ob)) := by
  simp only [appendAll, List.foldl_cons]
  have h : ∀ (t : List AppendOp) (l : List String),
      List.foldl applyAppend (some l) t = some (outboxLines (List.foldl applyAppend (some l) t)) := by
    intro t
    induction t with
    | nil => intro l; simp [outboxLines]
    | cons q t2 ih => intro l; simp only [List.foldl_cons, applyAppend]; exact ih _
  exact h ops _

theorem iterLines_dumpsEnvs (ops : List AppendOp) :
    ∀ (n : Nat) (s : Int), s < n → (∀ op ∈ ops, strValued op.payload) →
    iterLines s n (ops.map (fun op => dumps (mkEnvelope op.payload op.source op.tid op.now))) =
      (List.enumFrom n (ops.map (fun op => canonEnvelope op.payload op.source op.tid op.now)),
       none) := by
  induction ops with
  | nil => intro n s _ _; simp [iterLines]
  | cons op t ih =>
    intro n s hs hflat
    simp only [List.map_cons]
    rw [iterLines]
    rw [if_neg (by omega)]
    have hst := pyStrip_dumps_obj
    have hstrip : pyStrip (dumps (mkEnvelope op.payload op.source op.tid op.now)) =
        dumps (mkEnvelope op.payload op.source op.tid op.now) :=
      (pyStrip_dumps_obj _).1
    rw [mkEnvelope] at hstrip ⊢
    rw [hstrip]
    rw [if_neg (by
      rw [← mkEnvelope]
      exact (pyStrip_dumps_obj _).2)]
    rw [← mkEnvelope,
      loads_dumps_mkEnvelope op.payload op.source op.tid op.now
        (hflat op (List.mem_cons_self _ _))]
    try dsimp only
    rw [ih (n + 1) s (by omega) (fun q hq => hflat q (List.mem_cons_of_mem _ hq))]
    simp [List.enumFrom_cons]

theorem iterLines_mem_gt : ∀ (ls : List String) (n : Nat) (s : Int),
    ∀ p ∈ (iterLines s n ls).1, s < (p.1 : Int) ∧ n ≤ p.1 := by
  intro ls
  induction ls with
  | nil =>
    intro n s p hp
    simp [iterLines] at hp
  | cons l rest ih =>
    intro n s p hp
    rw [iterLines] at hp
    split at hp
    · obtain ⟨h1, h2⟩ := ih (n + 1) s p hp
      exact ⟨h1, by omega⟩
    · next hgt =>
      dsimp only at hp
      split at hp
      · obtain ⟨h1, h2⟩ := ih (n + 1) s p hp
        exact ⟨h1, by omega⟩
      · split at hp
        · next j heq =>
          dsimp only at hp
          rcases List.mem_cons.1 hp with rfl | hp2
          · exact ⟨by omega, le_refl n⟩
          · obtain ⟨h1, h2⟩ := ih (n + 1) s p hp2
            exact ⟨h1, by omega⟩
        · simp at hp

theorem iterLines_err_gt : ∀ (ls : List String) (n : Nat) (s : Int) (k : Nat),
    (iterLines s n ls).2 = some k → s < (k : Int) ∧ n ≤ k := by
  intro ls
  induction ls with
  | nil =>
    intro n s k hk
    simp [iterLines] at hk
  | cons l rest ih =>
    intro n s k hk
    rw [iterLines] at hk
    split at hk
    · obtain ⟨h1, h2⟩ := ih (n + 1) s k hk
      exact ⟨h1, by omega⟩
    · next hgt =>
      dsimp only at hk
      split at hk
      · obtain ⟨h1, h2⟩ := ih (n + 1) s k hk
        exact ⟨h1, by omega⟩
      · split at hk
        · next j heq =>
          dsimp only at hk
          obtain ⟨h1, h2⟩ := ih (n + 1) s k hk
          exact ⟨h1, by omega⟩
        · simp only [Option.some.injEq] at hk
          subst hk
          exact ⟨by omega, le_refl n⟩

theorem iterLines_mem_lt_err : ∀ (ls : List String) (n : Nat) (s : Int) (k : Nat),
    (iterLines s n ls).2 = some k →
    ∀ p ∈ (iterLines s n ls).1, p.1 < k := by
  intro ls
  induction ls with
  | nil =>
    intro n s k hk
    simp [iterLines] at hk
  | cons l rest ih =>
    intro n s k hk p hp
    rw [iterLines] at hk hp
    by_cases h1 : (n : Int) ≤ s
    · rw [if_pos h1] at hk hp
      exact ih (n + 1) s k hk p hp
    · rw [if_neg h1] at hk hp
      dsimp only at hk hp
      by_cases h2 : pyStrip l = ""
      · rw [if_pos h2] at hk hp
        exact ih (n + 1) s k hk p hp
      · rw [if_neg h2] at hk hp
        cases hl : loads (pyStrip l) with
        | some j =>
          rw [hl] at hk hp
          dsimp only at hk hp
          rcases List.mem_cons.1 hp with rfl | hp2
          · obtain ⟨-, hge⟩ := iterLines_err_gt rest (n + 1) s k hk
            omega
          · exact ih (n + 1) s k hk p hp2
        | none =>
          rw [hl] at hp
          simp at hp

theorem iterLines_pairwise : ∀ (ls : List String) (n : Nat) (s : Int),
    List.Pairwise (· < ·) ((iterLines s n ls).1.map Prod.fst) := by
  intro ls
  induction ls with
  | nil =>
    intro n s
    simp [iterLines]
  | cons l rest ih =>
    intro n s
    rw [iterLines]
    split
    · exact ih (n + 1) s
    · dsimp only
      split
      · exact ih (n + 1) s
      · split
        · next j heq =>
          dsimp only
          rw [List.map_cons, List.pairwise_cons]
          refine ⟨?_, ih (n + 1) s⟩
          intro b hb
          obtain ⟨p, hp, rfl⟩ := List.mem_map.1 hb
          obtain ⟨-, h2⟩ := iterLines_mem_gt rest (n + 1) s p hp
          omega
        · simp

/-! ## Claim C2 -/

/-- C2: appending N payloads to an empty or nonexistent outbox and reading
from offset 0 yields exactly N entries, in append order, with line numbers
1..N (each entry the decoded — canonically key-ordered — form of the
appended envelope); in general `iter_outbox_from_line` yields entries with
strictly increasing line numbers all strictly past the offset; a
nonexistent outbox yields an empty sequence. -/
theorem c2_append_then_read (ops : List AppendOp) (s : Int) (ob : Option (List String)) :
    ((∀ op ∈ ops, strValued op.payload) →
      iterOutbox 0 (appendAll ops none) =
        (List.enumFrom 1 (ops.map (fun op =>
          canonEnvelope op.payload op.source op.tid op.now)), none)) ∧
    List.Pairwise (· < ·) ((iterOutbox s ob).1.map Prod.fst) ∧
    (∀ p ∈ (iterOutbox s ob).1, s < (p.1 : Int)) ∧
    iterOutbox s none = ([], none) := by
  refine ⟨?_, ?_, ?_, rfl⟩
  · intro hflat
    cases ops with
    | nil => rfl
    | cons op t =>
      rw [appendAll_cons_some]
      show iterLines 0 1 _ = _
      rw [appendAll_lines]
      simp only [outboxLines, Option.getD_none, List.nil_append]
      exact iterLines_dumpsEnvs (op :: t) 1 0 (by omega) hflat
  · cases ob with
    | none => simp [iterOutbox]
    | some ls => exact iterLines_pairwise ls 1 s
  · cases ob with
    | none => simp [iterOutbox]
    | some ls => exact fun p hp => (iterLines_mem_gt ls 1 s p hp).1

/-- C2 witness: one append on the empty outbox, read from offset 0: exactly
one entry, at line 1, holding the decoded envelope; its line number is past
offset 0. -/
theorem c2_append_then_read_witness :
    iterOutbox 0 (appendAll [c2op] none) =
      (List.enumFrom 1 [canonEnvelope c2op.payload c2op.source c2op.tid c2op.now], none) ∧
    (0 : Int) < ((1 : Nat) : Int) := by
  have hflat : ∀ op ∈ [c2op], strValued op.payload := by
    intro op hop
    simp only [List.mem_singleton] at hop
    subst hop
    intro p hp
    simp only [c2op, List.mem_cons, List.not_mem_nil, or_false] at hp
    rcases hp with rfl | rfl <;> exact ⟨_, rfl⟩
  have h1 := (c2_append_then_read [c2op] 0 (appendAll [c2op] none)).1 hflat
  refine ⟨by simpa using h1, ?_⟩
  have h2 := (c2_append_then_read [c2op] 0 (appendAll [c2op] none)).2.2.1
    (1, canonEnvelope c2op.payload c2op.source c2op.tid c2op.now)
    (by rw [h1]; simp)
  exact h2

/-! ## Helper lemmas: the serialized line is printable ASCII -/

theorem hex4_printable (n : Nat) : ∀ d ∈ hex4 n, 0x20 ≤ d.toNat ∧ d.toNat ≤ 0x7e := by
  simp only [hex4, List.forall_mem_cons]
  exact ⟨hexDigitChar_printable (n / 4096 % 16), hexDigitChar_printable (n / 256 % 16),
    hexDigitChar_printable (n / 16 % 16), hexDigitChar_printable (n % 16), by simp⟩

theorem escChar_printable (c : Char) :
    ∀ d ∈ escChar c, 0x20 ≤ d.toNat ∧ d.toNat ≤ 0x7e := by
  unfold escChar
  split_ifs with h1 h2 h3 h4 h5 h6 h7 h8 h9
  · intro d hd
    simp only [List.mem_cons, List.not_mem_nil, or_false] at hd
    rcases hd with rfl | rfl <;> decide
  · intro d hd
    simp only [List.mem_cons, List.not_mem_nil, or_false] at hd
    rcases hd with rfl | rfl <;> decide
  · intro d hd
    simp only [List.mem_cons, List.not_mem_nil, or_false] at hd
    rcases hd with rfl | rfl <;> decide
  · intro d hd
    simp only [List.mem_cons, List.not_mem_nil, or_false] at hd
    rcases hd with rfl | rfl <;> decide
  · intro d hd
    simp only [List.mem_cons, List.not_mem_nil, or_false] at hd
    rcases hd with rfl | rfl <;> decide
  · intro d hd
    simp only [List.mem_cons, List.not_mem_nil, or_false] at hd
    rcases hd with rfl | rfl <;> decide
  · intro d hd
    simp only [List.mem_cons, List.not_mem_nil, or_false] at hd
    rcases hd with rfl | rfl <;> decide
  · intro d hd
    simp only [List.mem_singleton] at hd
    subst hd
    exact h8
  · simp only [List.forall_mem_cons]
    exact ⟨by decide, by decide, hex4_printable c.toNat⟩
  · simp only [List.forall_mem_append, List.forall_mem_cons]
    exact ⟨⟨by decide, by decide, hex4_printable (0xd800 + (c.toNat - 0x10000) / 0x400)⟩,
      ⟨by decide, by decide, hex4_printable (0xdc00 + (c.toNat - 0x10000) % 0x400)⟩⟩

theorem escString_printable (l : List Char) :
    ∀ d ∈ escString l, 0x20 ≤ d.toNat ∧ d.toNat ≤ 0x7e := by
  intro d hd
  simp only [escString, List.mem_flatMap] at hd
  obtain ⟨c, -, hc⟩ := hd
  exact escChar_printable c d hc

theorem dumpStr_printable (s : String) :
    ∀ d ∈ dumpStr s, 0x20 ≤ d.toNat ∧ d.toNat ≤ 0x7e := by
  intro d hd
  simp only [dumpStr, List.mem_cons, List.mem_append, List.mem_singleton] at hd
  rcases hd with (rfl | h) | (rfl | h)
  · decide
  · exact escString_printable s.data d h
  · decide
  · simp at h

theorem dumpMembers_flat_printable (fs : List (String × Json)) (hflat : strValued fs) :
    ∀ d ∈ dumpMembers fs, 0x20 ≤ d.toNat ∧ d.toNat ≤ 0x7e := by
  induction fs with
  | nil => intro d hd; simp [dumpMembers] at hd
  | cons kv t ih =>
    obtain ⟨k, v⟩ := kv
    obtain ⟨sv, hsv⟩ := hflat (k, v) (List.mem_cons_self _ _)
    dsimp only at hsv
    subst hsv
    cases t with
    | nil =>
      rw [dumpMembers_single, dumpsL_str]
      simp only [List.forall_mem_append, List.forall_mem_cons]
      exact ⟨dumpStr_printable k, by decide, by decide, dumpStr_printable sv⟩
    | cons q t2 =>
      rw [dumpMembers_cons2, dumpsL_str]
      simp only [List.forall_mem_append, List.forall_mem_cons]
      exact ⟨⟨dumpStr_printable k, by decide, by decide, dumpStr_printable sv⟩,
        by decide, by decide, ih (fun p hp => hflat p (List.mem_cons_of_mem _ hp))⟩

theorem dumpsL_flatObj_printable (fs : List (String × Json)) (hflat : strValued fs) :
    ∀ d ∈ dumpsL (Json.obj fs), 0x20 ≤ d.toNat ∧ d.toNat ≤ 0x7e := by
  rw [dumpsL_obj]
  intro d hd
  simp only [List.mem_cons, List.mem_append, List.mem_singleton] at hd
  rcases hd with (rfl | h) | (rfl | h)
  · decide
  · exact dumpMembers_flat_printable (sortFields fs) (strValued_sortFields fs hflat) d h
  · decide
  · simp at h

theorem dumpsEnv_printable (payload : List (String × Json)) (source tid now : String)
    (hflat : strValued payload) :
    ∀ d ∈ dumpsL (mkEnvelope payload source tid now), 0x20 ≤ d.toNat ∧ d.toNat ≤ 0x7e := by
  have hflat3 : strValued [("queued_at", Json.str now), ("source", Json.str source),
      ("transport_id", Json.str tid)] := by
    intro p hp
    simp only [List.mem_cons, List.not_mem_nil, or_false] at hp
    rcases hp with rfl | rfl | rfl <;> exact ⟨_, rfl⟩
  rw [mkEnvelope, dumpsL_obj, sortFields_mkEnvelope, dumpMembers_cons2]
  simp only [List.forall_mem_cons, List.forall_mem_append, List.forall_mem_singleton]
  exact ⟨⟨by decide, ⟨dumpStr_printable "payload", by decide, by decide,
    dumpsL_flatObj_printable payload hflat⟩, by decide, by decide,
    dumpMembers_flat_printable _ hflat3⟩, by decide⟩

/-! ## Helper lemmas: `sortFields` sorts the keys and keeps every field -/

theorem insertField_sorted (kv : String × Json) (l : List (String × Json))
    (h : l.Pairwise (fun a b => a.1 ≤ b.1)) :
    (insertField kv l).Pairwise (fun a b => a.1 ≤ b.1) := by
  induction l with
  | nil => simp [insertField]
  | cons a t ih =>
    rcases List.pairwise_cons.mp h with ⟨ha, ht⟩
    simp only [insertField]
    split
    · rename_i hlt
      refine List.pairwise_cons.mpr ⟨?_, h⟩
      intro b hb
      rcases List.mem_cons.mp hb with rfl | hbt
      · exact le_of_lt hlt
      · exact le_trans (le_of_lt hlt) (ha b hbt)
    · rename_i hnlt
      refine List.pairwise_cons.mpr ⟨?_, ih ht⟩
      intro b hb
      rcases (mem_insertField kv b t).mp hb with rfl | hbt
      · exact le_of_not_lt hnlt
      · exact ha b hbt

theorem insertField_perm (kv : String × Json) (l : List (String × Json)) :
    List.Perm (insertField kv l) (kv :: l) := by
  induction l with
  | nil => simp [insertField]
  | cons a t ih =>
    simp only [insertField]
    split
    · exact List.Perm.refl _
    · exact List.Perm.trans (List.Perm.cons a ih) (List.Perm.swap kv a t)

theorem sortFields_sorted (fs : List (String × Json)) :
    (sortFields fs).Pairwise (fun a b => a.1 ≤ b.1) := by
  induction fs with
  | nil => simp [sortFields]
  | cons h t ih => exact insertField_sorted h (sortFields t) ih

theorem sortFields_perm (fs : List (String × Json)) :
    List.Perm (sortFields fs) fs := by
  induction fs with
  | nil => simp [sortFields]
  | cons h t ih =>
    exact List.Perm.trans (insertField_perm h (sortFields t)) (List.Perm.cons h ih)

/-- C8: for every string-valued payload (every payload `create_payload` accepts
is string-valued) wrapped in an envelope at append time, `append_outbox_message`
writes exactly one new final line; that line's characters are all printable
ASCII — in particular it contains no `\n` or `\r`, so it is a single line with
no embedded newlines; and the encoding is canonical: the four envelope keys are
serialized in the fixed sorted order `payload`, `queued_at`, `source`,
`transport_id` regardless of field contents, and the nested payload keys are
serialized key-sorted (`sortFields` is a key-sorted permutation of the payload's
fields). -/
theorem c8_single_line_stable_key_order (payload : List (String × Json))
    (source tid now : String) (ob : Option (List String))
    (hflat : strValued payload) :
    (appendOutboxMessage payload source tid now ob).1 =
      outboxLines ob ++ [dumps (mkEnvelope payload source tid now)] ∧
    (∀ c ∈ (dumps (mkEnvelope payload source tid now)).data,
      c ≠ '\n' ∧ c ≠ '\r' ∧ 0x20 ≤ c.toNat ∧ c.toNat ≤ 0x7e) ∧
    dumpsL (mkEnvelope payload source tid now) =
      '{' :: (dumpStr "payload" ++ ':' :: ' ' :: dumpsL (Json.obj payload) ++
        ',' :: ' ' :: dumpMembers [("queued_at", Json.str now),
          ("source", Json.str source), ("transport_id", Json.str tid)]) ++ ['}'] ∧
    (sortFields payload).Pairwise (fun a b => a.1 ≤ b.1) ∧
    List.Perm (sortFields payload) payload := by
  refine ⟨rfl, ?_, ?_, sortFields_sorted payload, sortFields_perm payload⟩
  · intro c hc
    have hp := dumpsEnv_printable payload source tid now hflat c hc
    have h10 : ('\n').toNat = 10 := rfl
    have h13 : ('\r').toNat = 13 := rfl
    refine ⟨?_, ?_, hp.1, hp.2⟩
    · intro he; rw [he] at hp; omega
    · intro he; rw [he] at hp; omega
  · rw [mkEnvelope, dumpsL_obj, sortFields_mkEnvelope, dumpMembers_cons2]

theorem c8_single_line_stable_key_order_witness :
    strValued [("message_id", Json.str "m-1"), ("content", Json.str "hi")] ∧
    ((appendOutboxMessage [("message_id", Json.str "m-1"), ("content", Json.str "hi")]
        "producer" "t-1" "2024-01-01T00:00:00Z" none).1 =
      outboxLines none ++ [dumps (mkEnvelope
        [("message_id", Json.str "m-1"), ("content", Json.str "hi")]
        "producer" "t-1" "2024-01-01T00:00:00Z")] ∧
    (∀ c ∈ (dumps (mkEnvelope [("message_id", Json.str "m-1"), ("content", Json.str "hi")]
        "producer" "t-1" "2024-01-01T00:00:00Z")).data,
      c ≠ '\n' ∧ c ≠ '\r' ∧ 0x20 ≤ c.toNat ∧ c.toNat ≤ 0x7e) ∧
    dumpsL (mkEnvelope [("message_id", Json.str "m-1"), ("content", Json.str "hi")]
        "producer" "t-1" "2024-01-01T00:00:00Z") =
      '{' :: (dumpStr "payload" ++ ':' :: ' ' ::
        dumpsL (Json.obj [("message_id", Json.str "m-1"), ("content", Json.str "hi")]) ++
        ',' :: ' ' :: dumpMembers [("queued_at", Json.str "2024-01-01T00:00:00Z"),
          ("source", Json.str "producer"), ("transport_id", Json.str "t-1")]) ++ ['}'] ∧
    (sortFields [("message_id", Json.str "m-1"), ("content", Json.str "hi")]).Pairwise
      (fun a b => a.1 ≤ b.1) ∧
    List.Perm (sortFields [("message_id", Json.str "m-1"), ("content", Json.str "hi")])
      [("message_id", Json.str "m-1"), ("content", Json.str "hi")]) := by
  have hflat : strValued [("message_id", Json.str "m-1"), ("content", Json.str "hi")] := by
    intro p hp
    simp only [List.mem_cons, List.not_mem_nil, or_false] at hp
    rcases hp with rfl | rfl
    · exact ⟨"m-1", rfl⟩
    · exact ⟨"hi", rfl⟩
  exact ⟨hflat, c8_single_line_stable_key_order _ "producer" "t-1" "2024-01-01T00:00:00Z"
    none hflat⟩

/-! ## Helper lemmas: the driver loop on a log with a malformed line -/

theorem insertMessageFromPayload_isOk (pfs : List (String × Json))
    (tid src : Option Json) (cn now : String) (db : List Row)
    (h1 : payloadField pfs "message_id" ≠ "") (h2 : payloadField pfs "content" ≠ "") :
    ∃ pr, insertMessageFromPayload pfs tid src cn now db = Except.ok pr := by
  simp only [insertMessageFromPayload]
  rw [if_neg h1, if_neg h2]
  exact ⟨_, rfl⟩

theorem driverLoop_good_err (cn : String) (clock : Nat → String) (k : Nat) :
    ∀ (es : List (Nat × Json)) (latest : Int) (off : StateFile) (db : List Row)
      (i proc dups : Nat), (∀ e ∈ es, goodEntry e) →
    ∃ db2 dups2,
      driverLoop cn 0 clock (some k) es latest off db i proc dups =
        ⟨.stoppedError, proc + es.length, dups2,
         es.foldl (fun _ e => (e.1 : Int)) latest,
         es.foldl (fun o e => setConsumerOffset cn (e.1 : Int) o) off, db2⟩ := by
  intro es
  induction es with
  | nil =>
    intro latest off db i proc dups _
    exact ⟨db, dups, by simp [driverLoop]⟩
  | cons e rest ih =>
    intro latest off db i proc dups hgood
    obtain ⟨ln, env⟩ := e
    obtain ⟨pfs, hpf, h1, h2⟩ := hgood (ln, env) (List.mem_cons_self _ _)
    obtain ⟨⟨db2, row⟩, hins⟩ :=
      insertMessageFromPayload_isOk pfs (env.get "transport_id") (env.get "source")
        cn (clock i) db h1 h2
    obtain ⟨db3, dups3, heq⟩ :=
      ih (ln : Int) (setConsumerOffset cn (ln : Int) off) db2 (i + 1) (proc + 1)
        (if row.is_duplicate ≠ 0 then dups + 1 else dups)
        (fun p hp => hgood p (List.mem_cons_of_mem _ hp))
    refine ⟨db3, dups3, ?_⟩
    rw [driverLoop]
    rw [if_neg (by simp)]
    dsimp only at hpf
    rw [hpf]
    dsimp only
    rw [hins]
    dsimp only
    rw [heq]
    simp only [List.foldl_cons, List.length_cons]
    have hp : proc + 1 + rest.length = proc + (rest.length + 1) := by omega
    rw [hp]

theorem getConsumerOffset_foldl_set (cn : String) (es : List (Nat × Json))
    (e : Nat × Json) (off : StateFile) :
    getConsumerOffset cn ((es ++ [e]).foldl
      (fun o p => setConsumerOffset cn (p.1 : Int) o) off) = (e.1 : Int) := by
  rw [List.foldl_append]
  simp only [List.foldl_cons, List.foldl_nil]
  rw [getConsumerOffset_setConsumerOffset_self]
  exact max_eq_right (by positivity)

theorem iterLines_cons_env (payload : List (String × Json)) (source tid now : String)
    (rest : List String) (n : Nat) (s : Int)
    (hs : s < n) (hflat : strValued payload) :
    iterLines s n (dumps (mkEnvelope payload source tid now) :: rest) =
      ((n, canonEnvelope payload source tid now) ::
        (iterLines s (n + 1) rest).1, (iterLines s (n + 1) rest).2) := by
  rw [iterLines]
  rw [if_neg (by omega)]
  have hstrip : pyStrip (dumps (mkEnvelope payload source tid now)) =
      dumps (mkEnvelope payload source tid now) :=
    (pyStrip_dumps_obj _).1
  rw [mkEnvelope] at hstrip ⊢
  rw [hstrip]
  rw [if_neg (by
    rw [← mkEnvelope]
    exact (pyStrip_dumps_obj _).2)]
  rw [← mkEnvelope, loads_dumps_mkEnvelope payload source tid now hflat]

/-- C3: when the iterator hits an undecodable non-blank line at position `k`
after yielding entries the store accepts, the driver (unlimited batch) stops
with an error, having processed exactly the yielded entries; the offset is
persisted immediately after each insert (the final store is the per-entry fold
of `set_consumer_offset`), every processed line number is strictly below `k`,
and the persisted offset ends at the line number of the last successfully
processed entry. -/
theorem c3_malformed_line_stops_driver (cn : String) (clock : Nat → String)
    (st : SysState) (es : List (Nat × Json)) (k : Nat)
    (hit : iterOutbox (getConsumerOffset cn st.offsets) st.outbox = (es, some k))
    (hgood : ∀ e ∈ es, goodEntry e) :
    (∃ db2 dups2,
      runDriver cn 0 clock st =
        ⟨.stoppedError, es.length, dups2,
         es.foldl (fun _ e => (e.1 : Int)) (getConsumerOffset cn st.offsets),
         es.foldl (fun o e => setConsumerOffset cn (e.1 : Int) o) st.offsets, db2⟩) ∧
    (∀ e ∈ es, e.1 < k) ∧
    (∀ h : es ≠ [], getConsumerOffset cn
      (es.foldl (fun o e => setConsumerOffset cn (e.1 : Int) o) st.offsets) =
      ((es.getLast h).1 : Int)) := by
  refine ⟨?_, ?_, ?_⟩
  · obtain ⟨db2, dups2, heq⟩ :=
      driverLoop_good_err cn clock k es (getConsumerOffset cn st.offsets) st.offsets
        st.db 0 0 0 hgood
    refine ⟨db2, dups2, ?_⟩
    simp only [runDriver]
    rw [hit]
    dsimp only
    rw [heq]
    simp only [Nat.zero_add]
  · intro e he
    cases hob : st.outbox with
    | none => rw [hob] at hit; simp [iterOutbox] at hit
    | some ls =>
      rw [hob] at hit
      simp only [iterOutbox] at hit
      exact iterLines_mem_lt_err ls 1 (getConsumerOffset cn st.offsets) k
        (by rw [hit]) e (by rw [hit]; exact he)
  · intro h
    have hsplit : es.dropLast ++ [es.getLast h] = es := List.dropLast_append_getLast h
    have hfold := getConsumerOffset_foldl_set cn es.dropLast (es.getLast h) st.offsets
    rw [hsplit] at hfold
    exact hfold

theorem c3_malformed_line_stops_driver_witness :
    (iterOutbox (getConsumerOffset "consumer-stub" StateFile.missing)
      (some [dumps (mkEnvelope [("content", Json.str "a"), ("message_id", Json.str "m1")]
          "local-script" "t1" "2024-01-01T00:00:00Z"),
        dumps (mkEnvelope [("content", Json.str "b"), ("message_id", Json.str "m2")]
          "local-script" "t2" "2024-01-01T00:00:00Z"),
        "oops", "x", "y"]) =
      ([((1 : Nat), canonEnvelope [("content", Json.str "a"), ("message_id", Json.str "m1")]
          "local-script" "t1" "2024-01-01T00:00:00Z"),
        (2, canonEnvelope [("content", Json.str "b"), ("message_id", Json.str "m2")]
          "local-script" "t2" "2024-01-01T00:00:00Z")], some 3)) ∧
    ((∃ db2 dups2,
      runDriver "consumer-stub" 0 (fun _ => "2024-01-02T00:00:00Z")
          ⟨some [dumps (mkEnvelope [("content", Json.str "a"), ("message_id", Json.str "m1")]
              "local-script" "t1" "2024-01-01T00:00:00Z"),
            dumps (mkEnvelope [("content", Json.str "b"), ("message_id", Json.str "m2")]
              "local-script" "t2" "2024-01-01T00:00:00Z"),
            "oops", "x", "y"], StateFile.missing, []⟩ =
        ⟨.stoppedError,
         [((1 : Nat), canonEnvelope [("content", Json.str "a"), ("message_id", Json.str "m1")]
            "local-script" "t1" "2024-01-01T00:00:00Z"),
          (2, canonEnvelope [("content", Json.str "b"), ("message_id", Json.str "m2")]
            "local-script" "t2" "2024-01-01T00:00:00Z")].length, dups2,
         [((1 : Nat), canonEnvelope [("content", Json.str "a"), ("message_id", Json.str "m1")]
            "local-script" "t1" "2024-01-01T00:00:00Z"),
          (2, canonEnvelope [("content", Json.str "b"), ("message_id", Json.str "m2")]
            "local-script" "t2" "2024-01-01T00:00:00Z")].foldl (fun _ e => (e.1 : Int))
           (getConsumerOffset "consumer-stub" StateFile.missing),
         [((1 : Nat), canonEnvelope [("content", Json.str "a"), ("message_id", Json.str "m1")]
            "local-script" "t1" "2024-01-01T00:00:00Z"),
          (2, canonEnvelope [("content", Json.str "b"), ("message_id", Json.str "m2")]
            "local-script" "t2" "2024-01-01T00:00:00Z")].foldl
           (fun o e => setConsumerOffset "consumer-stub" (e.1 : Int) o)
           StateFile.missing, db2⟩) ∧
    (∀ e ∈ [((1 : Nat), canonEnvelope [("content", Json.str "a"), ("message_id", Json.str "m1")]
          "local-script" "t1" "2024-01-01T00:00:00Z"),
        (2, canonEnvelope [("content", Json.str "b"), ("message_id", Json.str "m2")]
          "local-script" "t2" "2024-01-01T00:00:00Z")], e.1 < 3) ∧
    (∀ h : [((1 : Nat), canonEnvelope [("content", Json.str "a"), ("message_id", Json.str "m1")]
          "local-script" "t1" "2024-01-01T00:00:00Z"),
        (2, canonEnvelope [("content", Json.str "b"), ("message_id", Json.str "m2")]
          "local-script" "t2" "2024-01-01T00:00:00Z")] ≠ [],
      getConsumerOffset "consumer-stub"
        ([((1 : Nat), canonEnvelope [("content", Json.str "a"), ("message_id", Json.str "m1")]
            "local-script" "t1" "2024-01-01T00:00:00Z"),
          (2, canonEnvelope [("content", Json.str "b"), ("message_id", Json.str "m2")]
            "local-script" "t2" "2024-01-01T00:00:00Z")].foldl
           (fun o e => setConsumerOffset "consumer-stub" (e.1 : Int) o)
           StateFile.missing) =
        (([((1 : Nat), canonEnvelope [("content", Json.str "a"), ("message_id", Json.str "m1")]
            "local-script" "t1" "2024-01-01T00:00:00Z"),
          (2, canonEnvelope [("content", Json.str "b"), ("message_id", Json.str "m2")]
            "local-script" "t2" "2024-01-01T00:00:00Z")].getLast h).1 : Int))) := by
  have hflat1 : strValued [("content", Json.str "a"), ("message_id", Json.str "m1")] := by
    intro p hp
    simp only [List.mem_cons, List.not_mem_nil, or_false] at hp
    rcases hp with rfl | rfl <;> exact ⟨_, rfl⟩
  have hflat2 : strValued [("content", Json.str "b"), ("message_id", Json.str "m2")] := by
    intro p hp
    simp only [List.mem_cons, List.not_mem_nil, or_false] at hp
    rcases hp with rfl | rfl <;> exact ⟨_, rfl⟩
  have h0 : getConsumerOffset "consumer-stub" StateFile.missing = 0 := rfl
  have h3 : iterLines 0 3 ["oops", "x", "y"] = ([], some 3) := rfl
  have hit : iterOutbox (getConsumerOffset "consumer-stub" StateFile.missing)
      (some [dumps (mkEnvelope [("content", Json.str "a"), ("message_id", Json.str "m1")]
          "local-script" "t1" "2024-01-01T00:00:00Z"),
        dumps (mkEnvelope [("content", Json.str "b"), ("message_id", Json.str "m2")]
          "local-script" "t2" "2024-01-01T00:00:00Z"),
        "oops", "x", "y"]) =
      ([(1, canonEnvelope [("content", Json.str "a"), ("message_id", Json.str "m1")]
          "local-script" "t1" "2024-01-01T00:00:00Z"),
        (2, canonEnvelope [("content", Json.str "b"), ("message_id", Json.str "m2")]
          "local-script" "t2" "2024-01-01T00:00:00Z")], some 3) := by
    rw [h0]
    simp only [iterOutbox]
    rw [iterLines_cons_env [("content", Json.str "a"), ("message_id", Json.str "m1")]
      "local-script" "t1" "2024-01-01T00:00:00Z" _ 1 0 (by norm_num) hflat1]
    rw [iterLines_cons_env [("content", Json.str "b"), ("message_id", Json.str "m2")]
      "local-script" "t2" "2024-01-01T00:00:00Z" _ 2 0 (by norm_num) hflat2]
    rw [h3]
  have hg : ∀ e ∈ [(1, canonEnvelope [("content", Json.str "a"), ("message_id", Json.str "m1")]
        "local-script" "t1" "2024-01-01T00:00:00Z"),
      (2, canonEnvelope [("content", Json.str "b"), ("message_id", Json.str "m2")]
        "local-script" "t2" "2024-01-01T00:00:00Z")], goodEntry e := by
    have hs1 : sortFields [("content", Json.str "a"), ("message_id", Json.str "m1")] =
        [("content", Json.str "a"), ("message_id", Json.str "m1")] := by
      simp only [sortFields, insertField]
      norm_num
      intro hle
      exact absurd hle (by decide)
    have hs2 : sortFields [("content", Json.str "b"), ("message_id", Json.str "m2")] =
        [("content", Json.str "b"), ("message_id", Json.str "m2")] := by
      simp only [sortFields, insertField]
      norm_num
      intro hle
      exact absurd hle (by decide)
    intro e he
    simp only [List.mem_cons, List.not_mem_nil, or_false] at he
    rcases he with rfl | rfl
    · exact ⟨sortFields [("content", Json.str "a"), ("message_id", Json.str "m1")], rfl,
        by rw [hs1]; decide, by rw [hs1]; decide⟩
    · exact ⟨sortFields [("content", Json.str "b"), ("message_id", Json.str "m2")], rfl,
        by rw [hs2]; decide, by rw [hs2]; decide⟩
  exact ⟨hit, c3_malformed_line_stops_driver "consumer-stub" (fun _ => "2024-01-02T00:00:00Z")
    ⟨some [dumps (mkEnvelope [("content", Json.str "a"), ("message_id", Json.str "m1")]
        "local-script" "t1" "2024-01-01T00:00:00Z"),
      dumps (mkEnvelope [("content", Json.str "b"), ("message_id", Json.str "m2")]
        "local-script" "t2" "2024-01-01T00:00:00Z"),
      "oops", "x", "y"], StateFile.missing, []⟩ _ 3 hit hg⟩

/-! ## Helper lemmas: re-running the driver on an unchanged log (C6) -/

theorem iterLines_start_irrel : ∀ (ls : List String) (n : Nat) (s1 s2 : Int),
    s1 < n → s2 < n → iterLines s1 n ls = iterLines s2 n ls := by
  intro ls
  induction ls with
  | nil => intro n s1 s2 _ _; simp [iterLines]
  | cons l t ih =>
    intro n s1 s2 h1 h2
    rw [iterLines]
    conv_rhs => rw [iterLines]
    rw [if_neg (show ¬((n : Int) ≤ s1) by omega),
      if_neg (show ¬((n : Int) ≤ s2) by omega)]
    rw [ih (n + 1) s1 s2 (by omega) (by omega)]

theorem iterLines_restart : ∀ (ls : List String) (n : Nat) (s : Int) (ln : Nat)
    (env : Json) (rest : List (Nat × Json)) (err : Option Nat),
    iterLines s n ls = ((ln, env) :: rest, err) →
    iterLines (ln : Int) n ls = (rest, err) := by
  intro ls
  induction ls with
  | nil => intro n s ln env rest err h; simp [iterLines] at h
  | cons l t ih =>
    intro n s ln env rest err h
    rw [iterLines] at h
    rw [iterLines]
    by_cases h1 : (n : Int) ≤ s
    · rw [if_pos h1] at h
      have hmem : (ln, env) ∈ (iterLines s (n + 1) t).1 := by
        rw [h]; exact List.mem_cons_self _ _
      have hge := (iterLines_mem_gt t (n + 1) s (ln, env) hmem).2
      rw [if_pos (by exact_mod_cast Nat.le_of_lt (by omega))]
      exact ih (n + 1) s ln env rest err h
    · rw [if_neg h1] at h
      by_cases hb : pyStrip l = ""
      · rw [if_pos hb] at h
        have hmem : (ln, env) ∈ (iterLines s (n + 1) t).1 := by
          rw [h]; exact List.mem_cons_self _ _
        have hge := (iterLines_mem_gt t (n + 1) s (ln, env) hmem).2
        rw [if_pos (by exact_mod_cast Nat.le_of_lt (by omega))]
        exact ih (n + 1) s ln env rest err h
      · rw [if_neg hb] at h
        cases hl : loads (pyStrip l) with
        | none => rw [hl] at h; simp at h
        | some j =>
          rw [hl] at h
          simp only [Prod.mk.injEq, List.cons.injEq] at h
          obtain ⟨⟨⟨rfl, rfl⟩, hrest⟩, herr⟩ := h
          rw [if_pos (by omega)]
          rw [iterLines_start_irrel t (n + 1) (n : Int) s (by omega) (by omega)]
          rw [← hrest, ← herr]

theorem insertMessageFromPayload_isError (pfs : List (String × Json))
    (tid src : Option Json) (cn now : String) (db : List Row)
    (h : payloadField pfs "message_id" = "" ∨ payloadField pfs "content" = "") :
    ∃ msg, insertMessageFromPayload pfs tid src cn now db = Except.error msg := by
  simp only [insertMessageFromPayload]
  by_cases h1 : payloadField pfs "message_id" = ""
  · rw [if_pos h1]; exact ⟨_, rfl⟩
  · rcases h with h | h2
    · exact absurd h h1
    · rw [if_neg h1, if_pos h2]; exact ⟨_, rfl⟩

theorem insertMessageFromPayload_error_blank (pfs : List (String × Json))
    (tid src : Option Json) (cn now : String) (db : List Row) (msg : String)
    (h : insertMessageFromPayload pfs tid src cn now db = Except.error msg) :
    payloadField pfs "message_id" = "" ∨ payloadField pfs "content" = "" := by
  by_cases h1 : payloadField pfs "message_id" = ""
  · exact Or.inl h1
  by_cases h2 : payloadField pfs "content" = ""
  · exact Or.inr h2
  exfalso
  obtain ⟨pr, hok⟩ := insertMessageFromPayload_isOk pfs tid src cn now db h1 h2
  rw [hok] at h
  simp at h

theorem driverLoop_offsets_invariant (cn : String) (clock : Nat → String)
    (err : Option Nat) (ob : Option (List String)) :
    ∀ (es : List (Nat × Json)) (latest : Int) (off : StateFile) (db : List Row)
      (i proc dups : Nat),
      iterOutbox (getConsumerOffset cn off) ob = (es, err) →
    ∃ es2, iterOutbox (getConsumerOffset cn
        (driverLoop cn 0 clock err es latest off db i proc dups).offsets) ob =
        (es2, err) ∧
      (es2 = [] ∨ ∃ ln env rest, es2 = (ln, env) :: rest ∧
        (envelopePayload env = none ∨ ∃ pfs, envelopePayload env = some pfs ∧
          (payloadField pfs "message_id" = "" ∨ payloadField pfs "content" = ""))) := by
  intro es
  induction es with
  | nil =>
    intro latest off db i proc dups hiter
    cases err with
    | none => exact ⟨[], by simpa [driverLoop] using hiter, Or.inl rfl⟩
    | some k => exact ⟨[], by simpa [driverLoop] using hiter, Or.inl rfl⟩
  | cons e rest ih =>
    intro latest off db i proc dups hiter
    obtain ⟨ln, env⟩ := e
    rw [driverLoop]
    rw [if_neg (by simp)]
    cases hep : envelopePayload env with
    | none =>
      exact ⟨(ln, env) :: rest, hiter,
        Or.inr ⟨ln, env, rest, rfl, Or.inl hep⟩⟩
    | some pfs =>
      cases hins : insertMessageFromPayload pfs (env.get "transport_id")
          (env.get "source") cn (clock i) db with
      | error msg =>
        dsimp only
        rw [hins]
        exact ⟨(ln, env) :: rest, hiter, Or.inr ⟨ln, env, rest, rfl,
          Or.inr ⟨pfs, hep, insertMessageFromPayload_error_blank pfs
            (env.get "transport_id") (env.get "source") cn (clock i) db msg hins⟩⟩⟩
      | ok pr =>
        obtain ⟨db2, row⟩ := pr
        dsimp only
        rw [hins]
        dsimp only
        apply ih
        have hget : getConsumerOffset cn (setConsumerOffset cn (ln : Int) off) =
            (ln : Int) := by
          rw [getConsumerOffset_setConsumerOffset_self]
          exact max_eq_right (by positivity)
        rw [hget]
        cases hob : ob with
        | none => rw [hob] at hiter; simp [iterOutbox] at hiter
        | some ls =>
          rw [hob] at hiter
          simp only [iterOutbox] at hiter ⊢
          exact iterLines_restart ls 1 (getConsumerOffset cn off) ln env rest err hiter

theorem driverLoop_stuck_head (cn : String) (clock : Nat → String) (err : Option Nat)
    (es : List (Nat × Json)) (latest : Int) (off : StateFile) (db : List Row)
    (h : es = [] ∨ ∃ ln env rest, es = (ln, env) :: rest ∧
      (envelopePayload env = none ∨ ∃ pfs, envelopePayload env = some pfs ∧
        (payloadField pfs "message_id" = "" ∨ payloadField pfs "content" = ""))) :
    (driverLoop cn 0 clock err es latest off db 0 0 0).processed = 0 ∧
    (driverLoop cn 0 clock err es latest off db 0 0 0).offsets = off := by
  rcases h with rfl | ⟨ln, env, rest, rfl, hbad⟩
  · cases err <;> simp [driverLoop]
  · rw [driverLoop]
    rw [if_neg (by simp)]
    rcases hbad with hep | ⟨pfs, hep, hblank⟩
    · rw [hep]; exact ⟨rfl, rfl⟩
    · rw [hep]
      dsimp only
      obtain ⟨msg, hins⟩ := insertMessageFromPayload_isError pfs (env.get "transport_id")
        (env.get "source") cn (clock 0) db hblank
      rw [hins]
      exact ⟨rfl, rfl⟩

/-- C6: running the driver twice in a row (unlimited batch) with no outbox
appends in between — the second run starts from the offset store and table the
first run left behind — processes zero entries on the second run and leaves the
consumer's persisted offset store exactly as the first run left it, whatever
the log contents and however each run ended. -/
theorem c6_driver_idempotent_on_unchanged_log (cn : String)
    (clock clock2 : Nat → String) (st : SysState) :
    (runDriver cn 0 clock2 ⟨st.outbox, (runDriver cn 0 clock st).offsets,
      (runDriver cn 0 clock st).db⟩).processed = 0 ∧
    (runDriver cn 0 clock2 ⟨st.outbox, (runDriver cn 0 clock st).offsets,
      (runDriver cn 0 clock st).db⟩).offsets = (runDriver cn 0 clock st).offsets := by
  have hrun1 : runDriver cn 0 clock st =
      driverLoop cn 0 clock (iterOutbox (getConsumerOffset cn st.offsets) st.outbox).2
        (iterOutbox (getConsumerOffset cn st.offsets) st.outbox).1
        (getConsumerOffset cn st.offsets) st.offsets st.db 0 0 0 := rfl
  obtain ⟨es2, hiter2, hstuck⟩ :=
    driverLoop_offsets_invariant cn clock
      (iterOutbox (getConsumerOffset cn st.offsets) st.outbox).2 st.outbox
      (iterOutbox (getConsumerOffset cn st.offsets) st.outbox).1
      (getConsumerOffset cn st.offsets) st.offsets st.db 0 0 0 rfl
  rw [← hrun1] at hiter2
  have hrun2 : runDriver cn 0 clock2 ⟨st.outbox, (runDriver cn 0 clock st).offsets,
      (runDriver cn 0 clock st).db⟩ =
      driverLoop cn 0 clock2
        (iterOutbox (getConsumerOffset cn (runDriver cn 0 clock st).offsets) st.outbox).2
        (iterOutbox (getConsumerOffset cn (runDriver cn 0 clock st).offsets) st.outbox).1
        (getConsumerOffset cn (runDriver cn 0 clock st).offsets)
        (runDriver cn 0 clock st).offsets (runDriver cn 0 clock st).db 0 0 0 := rfl
  rw [hrun2, hiter2]
  exact driverLoop_stuck_head cn clock2
    (iterOutbox (getConsumerOffset cn st.offsets) st.outbox).2 es2
    (getConsumerOffset cn (runDriver cn 0 clock st).offsets)
    (runDriver cn 0 clock st).offsets (runDriver cn 0 clock st).db hstuck
